import Mathlib

/-!
# GPSClockMKRZero: the NMEA sentence parser `GPSParser`

A shallow embedding of `src/GPSParser.cpp` / `src/GPSParser.h` (built with `USE_GGA`
defined, as the header does) and theorems about it.

Conventions of the embedding.

* A C `char` and a `uint8_t` are natural numbers; a value is truncated with `% 256` at the
  places where the C code converts to `uint8_t`.  Whether `char` is signed or not does not
  matter: every use is an equality test, a range test on ASCII letters, or arithmetic whose
  result is reduced modulo 256.
* The parser object is the record `GPSParser`.  The function-local `static uint8_t r_checksum`
  of `nmea_parse` is a field of the record as well (the program has one parser).
* `buf` is a list of `NMEA_BUFF_SIZE` cells.  A write outside `buf[0..63]` is undefined
  behaviour in C; the embedding returns `none` there, so `nmea_parse` has an `Option` result.
* The member `valid` is initialised neither by the constructor nor by `reset`; its initial
  content is a parameter of `construct`.

Character codes used below: `$`=36, `*`=42, `,`=44, CR=13, LF=10, `.`=46, `0`=48, `9`=57,
`A`=65, `C`=67, `F`=70, `G`=71, `L`=76, `M`=77, `N`=78, `P`=80, `R`=82, `a`=97, `f`=102.
-/

namespace GPSClock

/-! ## Data model (`GPSParser.h`) -/

/-- The enum `nmea_state`. -/
inductive nmea_state where
  | NMEA_WAIT
  | NMEA_ID
  | NMEA_DATA
  | NMEA_CHECKSUM
  deriving DecidableEq, Repr

/-- The enum `nmea_id`. -/
inductive nmea_id where
  | NMEA_ID_OTHER
  | NMEA_ID_RMC
  | NMEA_ID_GGA
  deriving DecidableEq, Repr

open nmea_state nmea_id

/-- The constant `NMEA_BUFF_SIZE`. -/
def NMEA_BUFF_SIZE : Nat := 64

/-- The class `GPSParser`, together with the static `r_checksum` of `nmea_parse`. -/
@[ext] structure GPSParser where
  state : nmea_state
  id : nmea_id
  checksum : Nat
  token_number : Nat
  buf_pos : Nat
  buf : List Nat
  time_message_ready : Bool
  hour : Nat
  minute : Nat
  second : Nat
  sub_sec : Nat
  day : Nat
  month : Nat
  year : Nat
  valid : Nat
  nsat_message_ready : Bool
  nsat : Nat
  r_checksum : Nat
  deriving DecidableEq, Repr

/-! ## Operations (`GPSParser.cpp`) -/

/-- The loop `while (buf_pos) buf[--buf_pos] = 0` on the buffer alone: the first argument
is the current `buf_pos`. -/
def clearLoop : Nat → List Nat → List Nat
  | 0, b => b
  | n + 1, b => clearLoop n (b.set n 0)

/-- The method `GPSParser::clear_buf`.  With `buf_pos` above the buffer size the first write of the
loop is outside the array. -/
def clear_buf (p : GPSParser) : Option GPSParser :=
  if p.buf_pos ≤ NMEA_BUFF_SIZE then
    some { p with buf := clearLoop p.buf_pos p.buf, buf_pos := 0 }
  else none

/-- The constructor `GPSParser::GPSParser`: the member initialisers, then `clear_buf()`.
`valid0` is the indeterminate initial content of `valid`; the initial content of `buf` is
overwritten by `clear_buf` whatever it is. -/
def construct (valid0 : Nat) : Option GPSParser :=
  clear_buf
    { state := NMEA_WAIT, id := NMEA_ID_OTHER, checksum := 0, token_number := 0,
      buf_pos := NMEA_BUFF_SIZE, buf := List.replicate NMEA_BUFF_SIZE 0,
      time_message_ready := false,
      hour := 0, minute := 0, second := 0, sub_sec := 0, day := 0, month := 0, year := 0,
      valid := valid0, nsat_message_ready := false, nsat := 0, r_checksum := 0 }

/-- The method `GPSParser::reset`. -/
def reset (p : GPSParser) : Option GPSParser :=
  (clear_buf p).map fun q =>
    { q with state := NMEA_WAIT, id := NMEA_ID_OTHER, checksum := 0, token_number := 0,
             time_message_ready := false,
             hour := 0, minute := 0, second := 0, sub_sec := 0,
             day := 0, month := 0, year := 0,
             nsat_message_ready := false, nsat := 0 }

/-- The method `GPSParser::str2decimal` applied to `&buf[off]`: `int` arithmetic, result converted to
`uint8_t`. -/
def str2decimal (buf : List Nat) (off : Nat) : Nat :=
  ((10 * ((buf.getD off 0 : Int) - 48) + ((buf.getD (off + 1) 0 : Int) - 48)) % 256).toNat

/-- The method `GPSParser::data_gga_reader`. -/
def data_gga_reader (p : GPSParser) : GPSParser :=
  if p.buf.getD 0 0 = 0 then p
  else
    match p.token_number with
    | 6 => { p with nsat := str2decimal p.buf 0 }
    | _ => p

/-- The method `GPSParser::data_rmc_reader`. -/
def data_rmc_reader (p : GPSParser) : GPSParser :=
  if p.buf.getD 0 0 = 0 then p
  else
    match p.token_number with
    | 0 => { p with hour := str2decimal p.buf 0, minute := str2decimal p.buf 2,
                    second := str2decimal p.buf 4, sub_sec := str2decimal p.buf 7 }
    | 1 => { p with valid := p.buf.getD 0 0 }
    | 8 => { p with day := str2decimal p.buf 0, month := str2decimal p.buf 2,
                    year := str2decimal p.buf 4 }
    | _ => p

/-- The body of `GPSParser::check_message_id`, as a function of the member `buf` it reads. -/
def idOf (buf : List Nat) : nmea_id :=
  if buf.getD 0 0 ≠ 71 then NMEA_ID_OTHER
  else if buf.getD 1 0 ≠ 65 ∧ buf.getD 1 0 ≠ 76 ∧ buf.getD 1 0 ≠ 78 ∧ buf.getD 1 0 ≠ 80 then
    NMEA_ID_OTHER
  else if buf.getD 2 0 = 82 ∧ buf.getD 3 0 = 77 ∧ buf.getD 4 0 = 67 then NMEA_ID_RMC
  else if buf.getD 2 0 = 71 ∧ buf.getD 3 0 = 71 ∧ buf.getD 4 0 = 65 then NMEA_ID_GGA
  else NMEA_ID_OTHER

/-- The method `GPSParser::check_message_id`. -/
def check_message_id (p : GPSParser) : nmea_id := idOf p.buf

/-- The function `hexchar`; the result is a `uint8_t`. -/
def hexchar (a : Nat) : Nat :=
  if 97 ≤ a ∧ a ≤ 102 then (a - 97 + 10) % 256
  else if 65 ≤ a ∧ a ≤ 70 then (a - 65 + 10) % 256
  else (((a : Int) - 48) % 256).toNat

/-- The statement `switch (id)` of `nmea_parse` in state `NMEA_DATA`: the reader chosen by
the sentence kind. -/
def dispatch (p : GPSParser) : GPSParser :=
  match p.id with
  | NMEA_ID_RMC => data_rmc_reader p
  | NMEA_ID_GGA => data_gga_reader p
  | NMEA_ID_OTHER => p

/-- The statement `buf[buf_pos++] = c`. -/
def append (p : GPSParser) (c : Nat) : Option GPSParser :=
  if p.buf_pos < NMEA_BUFF_SIZE then
    some { p with buf := p.buf.set p.buf_pos c, buf_pos := p.buf_pos + 1 }
  else none

/-- The method `GPSParser::nmea_parse`. -/
def nmea_parse (p : GPSParser) (c : Nat) : Option GPSParser :=
  if c = 36 then
    (reset p).map fun q => { q with state := NMEA_ID }
  else if p.state = NMEA_WAIT then
    some p
  else if c = 42 then
    clear_buf { p with state := NMEA_CHECKSUM }
  else if p.state = NMEA_CHECKSUM then
    if c ≠ 13 ∧ c ≠ 10 then
      some { p with r_checksum := ((p.r_checksum <<< 4) % 256) ||| hexchar c }
    else
      let q :=
        if p.checksum = p.r_checksum then
          let q1 := if p.id = NMEA_ID_RMC then { p with time_message_ready := true } else p
          if q1.id = NMEA_ID_GGA then { q1 with nsat_message_ready := true } else q1
        else p
      some { q with r_checksum := 0, state := NMEA_WAIT }
  else
    let p1 := { p with checksum := p.checksum ^^^ (c % 256) }
    if p1.state = NMEA_ID then
      if c ≠ 44 then append p1 c
      else
        let p2 := { p1 with id := check_message_id p1 }
        let p3 := if p2.id ≠ NMEA_ID_OTHER then { p2 with state := NMEA_DATA } else p2
        clear_buf p3
    else if p1.state = NMEA_DATA then
      if c ≠ 44 then append p1 c
      else
        let p2 := dispatch p1
        let p3 := { p2 with token_number := (p2.token_number + 1) % 256 }
        (clear_buf p3).map fun p4 =>
          if c = 42 then { p4 with state := NMEA_CHECKSUM } else p4
    else some p1

/-- Feeding a sequence of characters, one call of `nmea_parse` per character. -/
def feed (p : GPSParser) : List Nat → Option GPSParser
  | [] => some p
  | c :: cs => (nmea_parse p c).bind fun q => feed q cs

/-- A freshly constructed parser fed a sequence of characters. -/
def run (valid0 : Nat) (cs : List Nat) : Option GPSParser :=
  (construct valid0).bind fun p => feed p cs

/-- The character codes of a string. -/
def bytes (s : String) : List Nat := s.toList.map Char.toNat

/-! ## Vocabulary for sentences -/

/-- The XOR of the low eight bits of every character of `w`, starting from `a`. -/
def xorFrom (a : Nat) (w : List Nat) : Nat := w.foldl (fun x c => x ^^^ (c % 256)) a

/-- The NMEA checksum of a payload: the XOR of its bytes. -/
def nmeaChecksum (w : List Nat) : Nat := xorFrom 0 w

/-- The value of a hexadecimal digit character, either case. -/
def hexDigitValue (c : Nat) : Option Nat :=
  if 48 ≤ c ∧ c ≤ 57 then some (c - 48)
  else if 65 ≤ c ∧ c ≤ 70 then some (c - 55)
  else if 97 ≤ c ∧ c ≤ 102 then some (c - 87)
  else none

/-- A token (the ID or one data field): at most 64 characters, none of them `$`, `*`, `,`. -/
def TokenOK (t : List Nat) : Prop :=
  t.length ≤ 64 ∧ ∀ c ∈ t, c ≠ 36 ∧ c ≠ 42 ∧ c ≠ 44

instance : DecidablePred TokenOK := fun t => by unfold TokenOK; infer_instance

/-- Tokens, each followed by a comma. -/
def closeAll : List (List Nat) → List Nat
  | [] => []
  | t :: ts => t ++ 44 :: closeAll ts

/-- Tokens separated by commas. -/
def joinFields : List (List Nat) → List Nat
  | [] => []
  | [t] => t
  | t :: u :: ts => t ++ 44 :: joinFields (u :: ts)

/-- The sentence `$` payload `*` h1 h2 T. -/
def sentence (payload : List Nat) (h1 h2 T : Nat) : List Nat :=
  36 :: payload ++ [42, h1, h2, T]

/-- The three characters naming a decoded sentence kind: `RMC`, `GGA`. -/
def kindChars : nmea_id → List Nat
  | NMEA_ID_RMC => [82, 77, 67]
  | NMEA_ID_GGA => [71, 71, 65]
  | NMEA_ID_OTHER => []

/-- The second character of a talker ID: one of `A`, `L`, `N`, `P`. -/
def TalkerOK (x : Nat) : Prop := x = 65 ∨ x = 76 ∨ x = 78 ∨ x = 80

instance : DecidablePred TalkerOK := fun x => by unfold TalkerOK; infer_instance

/-- A line terminator: CR or LF. -/
def Terminator (c : Nat) : Prop := c = 13 ∨ c = 10

instance : DecidablePred Terminator := fun c => by unfold Terminator; infer_instance

/-- An ASCII decimal digit. -/
def IsDigit (c : Nat) : Prop := 48 ≤ c ∧ c ≤ 57

instance : DecidablePred IsDigit := fun c => by unfold IsDigit; infer_instance

/-- The decimal value of the two digit characters `c d`. -/
def twoDigits (c d : Nat) : Nat := 10 * (c - 48) + (d - 48)

/-- The public output fields of the parser, apart from the two ready flags. -/
structure Outputs where
  hour : Nat
  minute : Nat
  second : Nat
  sub_sec : Nat
  day : Nat
  month : Nat
  year : Nat
  valid : Nat
  nsat : Nat
  deriving DecidableEq, Repr

/-- The output fields of a parser state. -/
def outputs (p : GPSParser) : Outputs :=
  { hour := p.hour, minute := p.minute, second := p.second, sub_sec := p.sub_sec,
    day := p.day, month := p.month, year := p.year, valid := p.valid, nsat := p.nsat }

/-- The field indices at which a sentence kind decodes a field. -/
def decodes (k : nmea_id) (n : Nat) : Prop :=
  (k = NMEA_ID_RMC ∧ (n = 0 ∨ n = 1 ∨ n = 8)) ∨ (k = NMEA_ID_GGA ∧ n = 6)

/-- The parser is in state `NMEA_DATA` of a sentence of kind `k`, at field index `n`. -/
def DataAt (p : GPSParser) (k : nmea_id) (n : Nat) : Prop :=
  p.state = NMEA_DATA ∧ p.id = k ∧ p.token_number = n

/-- Two parser states that differ at most in `valid` and in the received-checksum
accumulator. -/
def Agree (p q : GPSParser) : Prop :=
  { p with valid := 0, r_checksum := 0 } = { q with valid := 0, r_checksum := 0 }

/-- The buffer holding the characters `u` and NUL in every other cell. -/
def pad (u : List Nat) : List Nat := u ++ List.replicate (64 - u.length) 0

/-- The invariant of the scratch buffer: 64 cells, `buf_pos` within it, NUL from `buf_pos` on. -/
structure BufInv (p : GPSParser) : Prop where
  len : p.buf.length = 64
  pos : p.buf_pos ≤ 64
  tail : ∀ i, p.buf_pos ≤ i → p.buf.getD i 0 = 0

/-- States the parser reaches from its constructor by feeding characters. -/
def Reachable (p : GPSParser) : Prop := ∃ v cs, run v cs = some p

/-- The state right after a `$`: everything at its baseline except `valid` and `r_checksum`. -/
def started (v r : Nat) : GPSParser :=
  { state := NMEA_ID, id := NMEA_ID_OTHER, checksum := 0, token_number := 0,
    buf_pos := 0, buf := pad [],
    time_message_ready := false,
    hour := 0, minute := 0, second := 0, sub_sec := 0, day := 0, month := 0, year := 0,
    valid := v, nsat_message_ready := false, nsat := 0, r_checksum := r }

/-- The state after a token `t` and its closing comma, from a state with an empty buffer:
the token is buffered, then the comma resolves the ID or decodes the field. -/
def closeTok (p : GPSParser) (t : List Nat) : GPSParser :=
  let q := { p with checksum := xorFrom p.checksum t, buf := pad t, buf_pos := t.length }
  match p.state with
  | NMEA_ID =>
    { q with checksum := q.checksum ^^^ 44,
             id := idOf q.buf,
             state := if idOf q.buf ≠ NMEA_ID_OTHER then NMEA_DATA else NMEA_ID,
             buf := pad [], buf_pos := 0 }
  | NMEA_DATA =>
    { dispatch q with checksum := q.checksum ^^^ 44,
                      token_number := (q.token_number + 1) % 256,
                      buf := pad [], buf_pos := 0 }
  | _ => p

/-- An empty scratch buffer. -/
def Clean (p : GPSParser) : Prop := p.buf = pad [] ∧ p.buf_pos = 0

/-- The parser is reading the ID or a data field. -/
def InPayload (p : GPSParser) : Prop := p.state = NMEA_ID ∨ p.state = NMEA_DATA

/-- The state after the two checksum digits of value `16 * a + b` and the terminator. -/
def finish (q : GPSParser) (a b : Nat) : GPSParser :=
  { q with
      time_message_ready :=
        if q.checksum = 16 * a + b ∧ q.id = NMEA_ID_RMC then true else q.time_message_ready,
      nsat_message_ready :=
        if q.checksum = 16 * a + b ∧ q.id = NMEA_ID_GGA then true else q.nsat_message_ready,
      r_checksum := 0, state := NMEA_WAIT }

/-- The state of a freshly constructed parser whose `valid` holds 0. -/
def fresh0 : GPSParser :=
  { state := NMEA_WAIT, id := NMEA_ID_OTHER, checksum := 0, token_number := 0,
    buf_pos := 0, buf := List.replicate 64 0,
    time_message_ready := false,
    hour := 0, minute := 0, second := 0, sub_sec := 0, day := 0, month := 0, year := 0,
    valid := 0, nsat_message_ready := false, nsat := 0, r_checksum := 0 }

/-- The state of a parser (constructed with `valid` holding 7) that was fed `$GPGGA,12*4`:
a sentence abandoned after its first checksum digit. -/
def abandoned : GPSParser :=
  { state := NMEA_CHECKSUM, id := NMEA_ID_GGA, checksum := 121, token_number := 0,
    buf_pos := 0, buf := List.replicate 64 0,
    time_message_ready := false,
    hour := 0, minute := 0, second := 0, sub_sec := 0, day := 0, month := 0, year := 0,
    valid := 7, nsat_message_ready := false, nsat := 0, r_checksum := 4 }

/-- The sentence of the specification's example with its checksum, CR and LF. -/
def exampleRMC : List Nat :=
  bytes "$GPRMC,123519.00,A,4807.038,N,01131.000,E,022.4,084.4,230394,003.1,W*44" ++ [13, 10]

/-- A second RMC sentence whose checksum digits `00` do not match its payload (the XOR of
the payload is hexadecimal 51), with CR and LF. -/
def staleRMC : List Nat :=
  bytes "$GPRMC,235959.99,V,4807.038,N,01131.000,E,022.4,084.4,311299,003.1,W*00" ++ [13, 10]

/-- The state of a parser (constructed with `valid` holding 0) that was fed `exampleRMC`. -/
def afterExampleRMC : GPSParser :=
  { state := NMEA_WAIT, id := NMEA_ID_RMC, checksum := 68, token_number := 10,
    buf_pos := 0, buf := List.replicate 64 0,
    time_message_ready := true,
    hour := 12, minute := 35, second := 19, sub_sec := 0, day := 23, month := 3, year := 94,
    valid := 65, nsat_message_ready := false, nsat := 0, r_checksum := 0 }

/-- The state of a parser (constructed with `valid` holding 0) that was fed
`$GPRMC,123519.00,A,4807.038,N,01131.000,E,022.4,084.4,`: the date field (index 8) begins. -/
def beforeDate : GPSParser :=
  { state := NMEA_DATA, id := NMEA_ID_RMC, checksum := 48, token_number := 8,
    buf_pos := 0, buf := List.replicate 64 0,
    time_message_ready := false,
    hour := 12, minute := 35, second := 19, sub_sec := 0, day := 0, month := 0, year := 0,
    valid := 65, nsat_message_ready := false, nsat := 0, r_checksum := 0 }

/-- Every run of characters between two delimiters (`$`, `*`, `,`) has at most 64
characters; the first argument is the length of the run in progress. -/
def tokensFit : Nat → List Nat → Bool
  | _, [] => true
  | n, c :: cs =>
    if c = 36 ∨ c = 42 ∨ c = 44 then tokensFit 0 cs
    else decide (n < 64) && tokensFit (n + 1) cs

/-- The buffer invariant together with a bound on the fill: at most `n` characters are
buffered, and none while the parser waits or reads the checksum. -/
structure Fits (p : GPSParser) (n : Nat) : Prop where
  inv : BufInv p
  le : p.buf_pos ≤ n
  idle : p.state = NMEA_WAIT ∨ p.state = NMEA_CHECKSUM → p.buf_pos = 0

/-- The invariant of the ready flags: a flag that is true belongs to a completed sentence
of its kind. -/
def FlagsInv (p : GPSParser) : Prop :=
  (p.time_message_ready = true → p.state = NMEA_WAIT ∧ p.id = NMEA_ID_RMC) ∧
  (p.nsat_message_ready = true → p.state = NMEA_WAIT ∧ p.id = NMEA_ID_GGA)

/-- The state of a parser (constructed with `valid` holding 0) that was fed `$GPRMC,1235`:
four characters of field 0 are buffered. -/
def midField : GPSParser :=
  { state := NMEA_DATA, id := NMEA_ID_RMC, checksum := 98, token_number := 0,
    buf_pos := 4, buf := [49, 50, 51, 53] ++ List.replicate 60 0,
    time_message_ready := false,
    hour := 0, minute := 0, second := 0, sub_sec := 0, day := 0, month := 0, year := 0,
    valid := 0, nsat_message_ready := false, nsat := 0, r_checksum := 0 }

/-- The scratch-buffer property in the words of the source: `buf` has its 64 cells,
`buf_pos` is at most 64, and every cell from `buf_pos` up to 63 holds NUL. -/
def TailZero (p : GPSParser) : Prop :=
  p.buf.length = 64 ∧ p.buf_pos ≤ 64 ∧ ∀ i, p.buf_pos ≤ i → i < 64 → p.buf.getD i 0 = 0

/-! ## The scratch buffer -/

theorem clearLoop_length (n : Nat) (b : List Nat) : (clearLoop n b).length = b.length := by
  induction n generalizing b with
  | zero => rfl
  | succ n ih => simp [clearLoop, ih]

theorem clearLoop_getD (n : Nat) (b : List Nat) (i : Nat) :
    (clearLoop n b).getD i 0 = if i < n then 0 else b.getD i 0 := by
  induction n generalizing b with
  | zero => simp [clearLoop]
  | succ n ih =>
    rw [clearLoop, ih]
    by_cases h1 : i < n
    · simp [h1, Nat.lt_succ_of_lt h1]
    · by_cases h2 : i = n
      · subst h2
        simp only [lt_self_iff_false, if_false, Nat.lt_succ_self, if_true]
        by_cases h3 : i < b.length
        · simp [List.getD_eq_getElem?_getD, List.getElem?_set, h3]
        · simp [List.getD_eq_getElem?_getD, List.getElem?_set, h3]
      · have h4 : ¬ i < n + 1 := by omega
        simp only [h1, h4, if_false]
        simp [List.getD_eq_getElem?_getD, List.getElem?_set, Ne.symm h2]

theorem eq_replicate_of_getD (b : List Nat) (n : Nat) (hl : b.length = n)
    (h : ∀ i, b.getD i 0 = 0) : b = List.replicate n 0 := by
  apply List.ext_getElem
  · simp [hl]
  · intro i h1 h2
    have := h i
    simp only [List.getD_eq_getElem?_getD, List.getElem?_eq_getElem h1, Option.getD_some] at this
    simp [this]

theorem getD_replicate_zero (n i : Nat) : (List.replicate n (0 : Nat)).getD i 0 = 0 := by
  rw [List.getD_eq_getElem?_getD, List.getElem?_replicate]
  split_ifs <;> rfl

theorem pad_nil : pad [] = List.replicate 64 0 := rfl

theorem pad_length (u : List Nat) (h : u.length ≤ 64) : (pad u).length = 64 := by
  simp [pad]; omega

theorem pad_set (u : List Nat) (c : Nat) (h : u.length < 64) :
    (pad u).set u.length c = pad (u ++ [c]) := by
  unfold pad
  rw [List.set_append_right _ _ (le_refl _)]
  obtain ⟨k, hk⟩ : ∃ k, 64 - u.length = k + 1 := ⟨63 - u.length, by omega⟩
  have hk2 : 64 - (u ++ [c]).length = k := by simp; omega
  rw [hk, hk2]
  simp [List.replicate_succ]

theorem pad_getD_tail (u : List Nat) (i : Nat) (h : u.length ≤ i) : (pad u).getD i 0 = 0 := by
  unfold pad
  rw [List.getD_eq_getElem?_getD, List.getElem?_append_right h]
  by_cases h2 : i - u.length < 64 - u.length
  · simp [List.getElem?_replicate, h2]
  · simp [List.getElem?_replicate, h2]

theorem clearLoop_of_inv (p : GPSParser) (h : BufInv p) :
    clearLoop p.buf_pos p.buf = pad [] := by
  rw [pad_nil]
  apply eq_replicate_of_getD
  · rw [clearLoop_length, h.len]
  · intro i
    rw [clearLoop_getD]
    split_ifs with h1
    · rfl
    · exact h.tail i (by omega)

theorem bufInv_of_pad (p : GPSParser) (u : List Nat) (hb : p.buf = pad u)
    (hp : p.buf_pos = u.length) (hl : u.length ≤ 64) : BufInv p :=
  ⟨by rw [hb, pad_length u hl], by omega, fun i hi => by rw [hb]; exact pad_getD_tail u i (by omega)⟩

theorem clear_buf_of_inv (p : GPSParser) (h : BufInv p) :
    clear_buf p = some { p with buf := pad [], buf_pos := 0 } := by
  have := h.pos
  simp [clear_buf, NMEA_BUFF_SIZE, this, clearLoop_of_inv p h]

/-! ## Single steps of `nmea_parse` -/

theorem feed_append (p : GPSParser) (u w : List Nat) :
    feed p (u ++ w) = (feed p u).bind fun q => feed q w := by
  induction u generalizing p with
  | nil => simp [feed]
  | cons c u ih =>
    simp only [List.cons_append, feed]
    cases nmea_parse p c with
    | none => rfl
    | some q => simpa using ih q

theorem xorFrom_append (a : Nat) (u w : List Nat) :
    xorFrom a (u ++ w) = xorFrom (xorFrom a u) w := by
  simp [xorFrom, List.foldl_append]

theorem xorFrom_cons (a c : Nat) (w : List Nat) :
    xorFrom a (c :: w) = xorFrom (a ^^^ (c % 256)) w := rfl

/-- A `$` from a state with a sound buffer. -/
theorem nmea_parse_dollar (p : GPSParser) (h : BufInv p) :
    nmea_parse p 36 = some (started p.valid p.r_checksum) := by
  simp [nmea_parse, reset, clear_buf_of_inv p h, started]

/-- A character of a token, while reading the ID or a data field. -/
theorem nmea_parse_char (p : GPSParser) (c : Nat)
    (hs : p.state = NMEA_ID ∨ p.state = NMEA_DATA)
    (hc : c ≠ 36 ∧ c ≠ 42 ∧ c ≠ 44) (hp : p.buf_pos < 64) :
    nmea_parse p c = some { p with checksum := p.checksum ^^^ (c % 256),
                                   buf := p.buf.set p.buf_pos c,
                                   buf_pos := p.buf_pos + 1 } := by
  obtain ⟨h1, h2, h3⟩ := hc
  rcases hs with hs | hs <;>
    simp [nmea_parse, hs, h1, h2, h3, append, NMEA_BUFF_SIZE, hp]

/-- A whole token, while reading the ID or a data field. -/
theorem feed_token (t : List Nat) (p : GPSParser) (u : List Nat)
    (hs : p.state = NMEA_ID ∨ p.state = NMEA_DATA)
    (hb : p.buf = pad u) (hp : p.buf_pos = u.length)
    (ht : ∀ c ∈ t, c ≠ 36 ∧ c ≠ 42 ∧ c ≠ 44) (hl : u.length + t.length ≤ 64) :
    feed p t = some { p with checksum := xorFrom p.checksum t,
                             buf := pad (u ++ t),
                             buf_pos := u.length + t.length } := by
  induction t generalizing p u with
  | nil =>
    simp only [feed, List.append_nil, List.length_nil, Nat.add_zero, xorFrom, List.foldl_nil,
      Option.some.injEq]
    ext <;> simp [hb, hp]
  | cons c t ih =>
    simp only [List.length_cons] at hl
    have hc := ht c (List.mem_cons_self c t)
    rw [feed, nmea_parse_char p c hs hc (by omega)]
    simp only [Option.some_bind]
    rw [ih _ (u ++ [c]) (by simpa using hs) (by simp [hb, hp, pad_set u c (by omega)])
      (by simp [hp]) (fun d hd => ht d (List.mem_cons_of_mem c hd)) (by simp; omega)]
    simp only [Option.some.injEq]
    ext <;> simp [xorFrom_cons]; omega

/-- The comma that closes the ID token. -/
theorem nmea_parse_comma_id (p : GPSParser) (hs : p.state = NMEA_ID) (h : BufInv p) :
    nmea_parse p 44 =
      some { p with checksum := p.checksum ^^^ 44,
                    id := idOf p.buf,
                    state := if idOf p.buf ≠ NMEA_ID_OTHER then NMEA_DATA else NMEA_ID,
                    buf := pad [], buf_pos := 0 } := by
  have hpos := h.pos
  by_cases hk : idOf p.buf = NMEA_ID_OTHER <;>
    simp [nmea_parse, hs, check_message_id, hk, clear_buf, NMEA_BUFF_SIZE, hpos,
      clearLoop_of_inv p h]

theorem dispatch_frame (p : GPSParser) :
    (dispatch p).state = p.state ∧ (dispatch p).id = p.id ∧
    (dispatch p).checksum = p.checksum ∧ (dispatch p).token_number = p.token_number ∧
    (dispatch p).buf_pos = p.buf_pos ∧ (dispatch p).buf = p.buf ∧
    (dispatch p).time_message_ready = p.time_message_ready ∧
    (dispatch p).nsat_message_ready = p.nsat_message_ready ∧
    (dispatch p).r_checksum = p.r_checksum := by
  unfold dispatch data_rmc_reader data_gga_reader
  split <;> (try split_ifs) <;> (try split) <;> simp

/-- The comma that closes a data field. -/
theorem nmea_parse_comma_data (p : GPSParser) (hs : p.state = NMEA_DATA) (h : BufInv p) :
    nmea_parse p 44 =
      some { dispatch p with checksum := p.checksum ^^^ 44,
                             token_number := (p.token_number + 1) % 256,
                             buf := pad [], buf_pos := 0 } := by
  have hpos := h.pos
  have hclr := clearLoop_of_inv p h
  obtain ⟨st, id, ck, tn, bp, b, tr, ho, mi, se, ss, da, mo, ye, va, nr, ns, rc⟩ := p
  simp only at hs hpos hclr
  subst hs
  cases id <;>
    simp [nmea_parse, dispatch, data_rmc_reader, data_gga_reader, clear_buf, NMEA_BUFF_SIZE,
      hpos, hclr] <;>
    (try split_ifs) <;> (try split) <;> simp [hpos, hclr]

/-- The `*` that ends the payload. -/
theorem nmea_parse_star (p : GPSParser) (hs : p.state ≠ NMEA_WAIT) (h : BufInv p) :
    nmea_parse p 42 = some { p with state := NMEA_CHECKSUM, buf := pad [], buf_pos := 0 } := by
  have hpos := h.pos
  simp [nmea_parse, hs, clear_buf, NMEA_BUFF_SIZE, hpos, clearLoop_of_inv p h]

/-- A checksum character: anything but `$`, `*`, CR, LF while in state `NMEA_CHECKSUM`. -/
theorem nmea_parse_digit (p : GPSParser) (c : Nat) (hs : p.state = NMEA_CHECKSUM)
    (hc : c ≠ 36 ∧ c ≠ 42 ∧ c ≠ 13 ∧ c ≠ 10) :
    nmea_parse p c =
      some { p with r_checksum := ((p.r_checksum <<< 4) % 256) ||| hexchar c } := by
  obtain ⟨h1, h2, h3, h4⟩ := hc
  simp [nmea_parse, hs, h1, h2, h3, h4]

/-- The terminator in state `NMEA_CHECKSUM`. -/
theorem nmea_parse_eol (p : GPSParser) (c : Nat) (hs : p.state = NMEA_CHECKSUM)
    (hc : c = 13 ∨ c = 10) :
    nmea_parse p c =
      some { p with
        time_message_ready :=
          if p.checksum = p.r_checksum ∧ p.id = NMEA_ID_RMC then true else p.time_message_ready,
        nsat_message_ready :=
          if p.checksum = p.r_checksum ∧ p.id = NMEA_ID_GGA then true else p.nsat_message_ready,
        r_checksum := 0, state := NMEA_WAIT } := by
  obtain ⟨st, id, ck, tn, bp, b, tr, ho, mi, se, ss, da, mo, ye, va, nr, ns, rc⟩ := p
  simp only at hs
  subst hs
  rcases hc with rfl | rfl <;> by_cases hck : ck = rc <;> cases id <;>
    simp [nmea_parse, hck]

/-! ## The buffer invariant holds in every reachable state -/

theorem BufInv.of_eq {p q : GPSParser} (h : BufInv p) (hb : q.buf = p.buf)
    (hp : q.buf_pos = p.buf_pos) : BufInv q :=
  ⟨by rw [hb]; exact h.len, by rw [hp]; exact h.pos, fun i hi => by
    rw [hb]; exact h.tail i (by omega)⟩

theorem bufInv_clean (q : GPSParser) (hb : q.buf = pad []) (hp : q.buf_pos = 0) : BufInv q :=
  bufInv_of_pad q [] hb (by simpa using hp) (by simp)

theorem bufInv_append (p : GPSParser) (c : Nat) (h : BufInv p) (hlt : p.buf_pos < 64)
    (q : GPSParser) (hb : q.buf = p.buf.set p.buf_pos c) (hp : q.buf_pos = p.buf_pos + 1) :
    BufInv q := by
  refine ⟨by rw [hb, List.length_set]; exact h.len, by omega, fun i hi => ?_⟩
  rw [hb, List.getD_eq_getElem?_getD, List.getElem?_set_ne (by omega),
    ← List.getD_eq_getElem?_getD]
  exact h.tail i (by omega)

theorem bufInv_construct (v : Nat) (p : GPSParser) (h : construct v = some p) : BufInv p := by
  simp only [construct, clear_buf, NMEA_BUFF_SIZE, le_refl, if_true, Option.some.injEq] at h
  subst h
  refine ⟨by simp [clearLoop_length], by simp, fun i _ => ?_⟩
  simp only [clearLoop_getD]
  split_ifs with h1
  · rfl
  · exact getD_replicate_zero 64 i

theorem bufInv_step (p q : GPSParser) (c : Nat) (h : BufInv p)
    (hq : nmea_parse p c = some q) : BufInv q := by
  by_cases h36 : c = 36
  · subst h36
    rw [nmea_parse_dollar p h] at hq
    cases hq
    exact bufInv_clean _ rfl rfl
  by_cases hw : p.state = NMEA_WAIT
  · simp [nmea_parse, h36, hw] at hq
    subst hq
    exact h
  by_cases h42 : c = 42
  · subst h42
    rw [nmea_parse_star p hw h] at hq
    cases hq
    exact bufInv_clean _ rfl rfl
  by_cases hc : p.state = NMEA_CHECKSUM
  · by_cases he : c = 13 ∨ c = 10
    · rw [nmea_parse_eol p c hc he] at hq
      cases hq
      exact h.of_eq rfl rfl
    · rw [nmea_parse_digit p c hc ⟨h36, h42, by tauto, by tauto⟩] at hq
      cases hq
      exact h.of_eq rfl rfl
  have hs : p.state = NMEA_ID ∨ p.state = NMEA_DATA := by
    cases hst : p.state <;> simp_all
  by_cases h44 : c = 44
  · subst h44
    rcases hs with hs | hs
    · rw [nmea_parse_comma_id p hs h] at hq
      cases hq
      exact bufInv_clean _ rfl rfl
    · rw [nmea_parse_comma_data p hs h] at hq
      cases hq
      exact bufInv_clean _ rfl rfl
  · by_cases hlt : p.buf_pos < 64
    · rw [nmea_parse_char p c hs ⟨h36, h42, h44⟩ hlt] at hq
      cases hq
      exact bufInv_append p c h hlt _ rfl rfl
    · rcases hs with hs | hs <;>
        simp [nmea_parse, hs, h36, h42, h44, append, NMEA_BUFF_SIZE, hlt] at hq

theorem bufInv_feed (cs : List Nat) (p q : GPSParser) (h : BufInv p)
    (hq : feed p cs = some q) : BufInv q := by
  induction cs generalizing p with
  | nil =>
    simp only [feed, Option.some.injEq] at hq
    subst hq
    exact h
  | cons c cs ih =>
    rw [feed] at hq
    cases hstep : nmea_parse p c with
    | none => simp [hstep] at hq
    | some r =>
      rw [hstep] at hq
      exact ih r (bufInv_step p r c h hstep) (by simpa using hq)

theorem bufInv_of_reachable (p : GPSParser) (h : Reachable p) : BufInv p := by
  obtain ⟨v, cs, hrun⟩ := h
  unfold run at hrun
  cases hc : construct v with
  | none => simp [hc] at hrun
  | some p0 =>
    rw [hc] at hrun
    exact bufInv_feed cs p0 p (bufInv_construct v p0 hc) (by simpa using hrun)

/-! ## Whole tokens -/

@[simp] theorem dispatch_state (p : GPSParser) : (dispatch p).state = p.state :=
  (dispatch_frame p).1

@[simp] theorem dispatch_id (p : GPSParser) : (dispatch p).id = p.id :=
  (dispatch_frame p).2.1

@[simp] theorem dispatch_checksum (p : GPSParser) : (dispatch p).checksum = p.checksum :=
  (dispatch_frame p).2.2.1

@[simp] theorem dispatch_token_number (p : GPSParser) :
    (dispatch p).token_number = p.token_number :=
  (dispatch_frame p).2.2.2.1

@[simp] theorem dispatch_time_ready (p : GPSParser) :
    (dispatch p).time_message_ready = p.time_message_ready :=
  (dispatch_frame p).2.2.2.2.2.2.1

@[simp] theorem dispatch_nsat_ready (p : GPSParser) :
    (dispatch p).nsat_message_ready = p.nsat_message_ready :=
  (dispatch_frame p).2.2.2.2.2.2.2.1

@[simp] theorem dispatch_r_checksum (p : GPSParser) : (dispatch p).r_checksum = p.r_checksum :=
  (dispatch_frame p).2.2.2.2.2.2.2.2

theorem feed_closeTok (p : GPSParser) (t : List Nat) (hc : Clean p) (hs : InPayload p)
    (ht : TokenOK t) : feed p (t ++ [44]) = some (closeTok p t) := by
  obtain ⟨hb, hp⟩ := hc
  obtain ⟨hl, hch⟩ := ht
  rw [feed_append, feed_token t p [] hs hb (by simpa using hp) hch (by simpa using hl)]
  simp only [Option.some_bind, feed, List.nil_append, List.length_nil, Nat.zero_add]
  have hinv : BufInv { p with checksum := xorFrom p.checksum t, buf := pad t,
                              buf_pos := t.length } :=
    bufInv_of_pad _ t rfl rfl hl
  rcases hs with hs | hs
  · have h1 := nmea_parse_comma_id
      { p with checksum := xorFrom p.checksum t, buf := pad t, buf_pos := t.length } hs hinv
    rw [h1]
    simp [closeTok, hs]
  · have h1 := nmea_parse_comma_data
      { p with checksum := xorFrom p.checksum t, buf := pad t, buf_pos := t.length } hs hinv
    rw [h1]
    simp [closeTok, hs]

theorem closeTok_clean (p : GPSParser) (t : List Nat) (hs : InPayload p) :
    Clean (closeTok p t) := by
  unfold closeTok Clean
  rcases hs with hs | hs <;> simp [hs]

theorem closeTok_inPayload (p : GPSParser) (t : List Nat) (hs : InPayload p) :
    InPayload (closeTok p t) := by
  unfold closeTok InPayload
  rcases hs with hs | hs
  · simp only [hs]
    by_cases hk : idOf (pad t) = NMEA_ID_OTHER <;> simp [hk]
  · simp [hs]

theorem closeTok_checksum (p : GPSParser) (t : List Nat) (hs : InPayload p) :
    (closeTok p t).checksum = xorFrom p.checksum (t ++ [44]) := by
  unfold closeTok
  rcases hs with hs | hs <;> simp [hs, xorFrom_append, xorFrom_cons, xorFrom]

theorem closeTok_flags (p : GPSParser) (t : List Nat) :
    (closeTok p t).time_message_ready = p.time_message_ready ∧
    (closeTok p t).nsat_message_ready = p.nsat_message_ready ∧
    (closeTok p t).r_checksum = p.r_checksum := by
  unfold closeTok
  split <;> simp

theorem feed_closeAll (ts : List (List Nat)) (p : GPSParser) (hc : Clean p) (hs : InPayload p)
    (ht : ∀ t ∈ ts, TokenOK t) : feed p (closeAll ts) = some (ts.foldl closeTok p) := by
  induction ts generalizing p with
  | nil => rfl
  | cons t ts ih =>
    have h1 := feed_closeTok p t hc hs (ht t (List.mem_cons_self t ts))
    have h2 : closeAll (t :: ts) = (t ++ [44]) ++ closeAll ts := by simp [closeAll]
    rw [h2, feed_append, h1]
    simp only [Option.some_bind, List.foldl_cons]
    exact ih _ (closeTok_clean p t hs) (closeTok_inPayload p t hs)
      (fun u hu => ht u (List.mem_cons_of_mem t hu))

theorem foldl_closeTok_inPayload (ts : List (List Nat)) (p : GPSParser) (hs : InPayload p) :
    InPayload (ts.foldl closeTok p) := by
  induction ts generalizing p with
  | nil => exact hs
  | cons t ts ih => exact ih _ (closeTok_inPayload p t hs)

theorem foldl_closeTok_clean (ts : List (List Nat)) (p : GPSParser) (hc : Clean p)
    (hs : InPayload p) : Clean (ts.foldl closeTok p) := by
  induction ts generalizing p with
  | nil => exact hc
  | cons t ts ih => exact ih _ (closeTok_clean p t hs) (closeTok_inPayload p t hs)

theorem foldl_closeTok_checksum (ts : List (List Nat)) (p : GPSParser) (hs : InPayload p) :
    (ts.foldl closeTok p).checksum = xorFrom p.checksum (closeAll ts) := by
  induction ts generalizing p with
  | nil => rfl
  | cons t ts ih =>
    rw [List.foldl_cons, ih _ (closeTok_inPayload p t hs), closeTok_checksum p t hs]
    have h2 : closeAll (t :: ts) = (t ++ [44]) ++ closeAll ts := by simp [closeAll]
    rw [h2]
    simp only [xorFrom_append]

theorem foldl_closeTok_flags (ts : List (List Nat)) (p : GPSParser) :
    (ts.foldl closeTok p).time_message_ready = p.time_message_ready ∧
    (ts.foldl closeTok p).nsat_message_ready = p.nsat_message_ready ∧
    (ts.foldl closeTok p).r_checksum = p.r_checksum := by
  induction ts generalizing p with
  | nil => simp
  | cons t ts ih =>
    obtain ⟨h1, h2, h3⟩ := ih (closeTok p t)
    obtain ⟨g1, g2, g3⟩ := closeTok_flags p t
    simp [h1, h2, h3, g1, g2, g3]

theorem joinFields_cons_cons (t u : List Nat) (ts : List (List Nat)) :
    joinFields (t :: u :: ts) = t ++ 44 :: joinFields (u :: ts) := rfl

theorem joinFields_append_last (ts : List (List Nat)) (last : List Nat) :
    joinFields (ts ++ [last]) = closeAll ts ++ last := by
  induction ts with
  | nil => rfl
  | cons t ts ih =>
    cases ts with
    | nil => simp [joinFields, closeAll]
    | cons u us =>
      rw [List.cons_append, List.cons_append, joinFields_cons_cons, ← List.cons_append, ih]
      simp [closeAll]

/-! ## The end of a sentence -/

theorem hexchar_of_digit (c a : Nat) (h : hexDigitValue c = some a) :
    hexchar c = a ∧ a < 16 ∧ c ≠ 36 ∧ c ≠ 42 ∧ c ≠ 13 ∧ c ≠ 10 := by
  unfold hexDigitValue at h
  unfold hexchar
  split_ifs at h with h1 h2 h3 <;> simp only [Option.some.injEq] at h <;> subst h
  · have g1 : ¬ (97 ≤ c ∧ c ≤ 102) := by omega
    have g2 : ¬ (65 ≤ c ∧ c ≤ 70) := by omega
    rw [if_neg g1, if_neg g2]
    omega
  · have g1 : ¬ (97 ≤ c ∧ c ≤ 102) := by omega
    rw [if_neg g1, if_pos h2]
    omega
  · rw [if_pos h3]
    omega

/-- Two hex digits shifted into the 8-bit accumulator replace whatever it held. -/
theorem flush_two_digits (r a b : Nat) (ha : a < 16) (hb : b < 16) :
    ((((r <<< 4) % 256 ||| a) <<< 4) % 256) ||| b = 16 * a + b := by
  have e1 : (r <<< 4) % 256 = 2 ^ 4 * (r % 16) := by
    rw [Nat.shiftLeft_eq]; omega
  have e2 : 2 ^ 4 * (r % 16) ||| a = 2 ^ 4 * (r % 16) + a :=
    (Nat.mul_add_lt_is_or (by simpa using ha) (r % 16)).symm
  have e3 : ((2 ^ 4 * (r % 16) + a) <<< 4) % 256 = 2 ^ 4 * a := by
    rw [Nat.shiftLeft_eq]; omega
  have e4 : 2 ^ 4 * a ||| b = 2 ^ 4 * a + b :=
    (Nat.mul_add_lt_is_or (by simpa using hb) a).symm
  rw [e1, e2, e3, e4]
  norm_num

/-- The last field of the payload and the `*` behind it. -/
theorem feed_last (p : GPSParser) (t : List Nat) (hc : Clean p) (hs : InPayload p)
    (ht : TokenOK t) :
    feed p (t ++ [42]) =
      some { p with checksum := xorFrom p.checksum t, state := NMEA_CHECKSUM } := by
  obtain ⟨hb, hp⟩ := hc
  obtain ⟨hl, hch⟩ := ht
  rw [feed_append, feed_token t p [] hs hb (by simpa using hp) hch (by simpa using hl)]
  simp only [Option.some_bind, feed, List.nil_append, List.length_nil, Nat.zero_add]
  have hinv : BufInv { p with checksum := xorFrom p.checksum t, buf := pad t,
                              buf_pos := t.length } :=
    bufInv_of_pad _ t rfl rfl hl
  have hw : ({ p with checksum := xorFrom p.checksum t, buf := pad t,
                      buf_pos := t.length } : GPSParser).state ≠ NMEA_WAIT := by
    rcases hs with hs | hs <;> simp [hs]
  rw [nmea_parse_star _ hw hinv]
  simp [hb, hp]

theorem finish_time (q : GPSParser) (a b : Nat) (h1 : q.checksum = 16 * a + b)
    (h2 : q.id = NMEA_ID_RMC) : (finish q a b).time_message_ready = true := by
  simp [finish, h1, h2]

theorem finish_nsat (q : GPSParser) (a b : Nat) (h1 : q.checksum = 16 * a + b)
    (h2 : q.id = NMEA_ID_GGA) : (finish q a b).nsat_message_ready = true := by
  simp [finish, h1, h2]

theorem finish_mismatch (q : GPSParser) (a b : Nat) (h1 : q.checksum ≠ 16 * a + b) :
    (finish q a b).time_message_ready = q.time_message_ready ∧
    (finish q a b).nsat_message_ready = q.nsat_message_ready := by
  simp [finish, h1]

/-- Two hex digits and a terminator in state `NMEA_CHECKSUM`. -/
theorem feed_tail (p : GPSParser) (h1 h2 a b T : Nat) (hs : p.state = NMEA_CHECKSUM)
    (ha : hexDigitValue h1 = some a) (hb : hexDigitValue h2 = some b)
    (hT : T = 13 ∨ T = 10) :
    feed p [h1, h2, T] = some (finish p a b) := by
  obtain ⟨e1, l1, n1⟩ := hexchar_of_digit h1 a ha
  obtain ⟨e2, l2, n2⟩ := hexchar_of_digit h2 b hb
  have s1 := nmea_parse_digit p h1 hs n1
  have s2 := nmea_parse_digit
    { p with r_checksum := ((p.r_checksum <<< 4) % 256) ||| hexchar h1 } h2 hs n2
  have s3 := nmea_parse_eol
    { p with r_checksum :=
        ((((p.r_checksum <<< 4) % 256 ||| hexchar h1) <<< 4) % 256) ||| hexchar h2 } T hs hT
  simp only [feed]
  rw [s1]
  simp only [Option.some_bind]
  rw [s2]
  simp only [Option.some_bind]
  rw [s3]
  simp only [Option.some_bind, e1, e2, flush_two_digits p.r_checksum a b l1 l2, finish]

/-- A whole sentence, from any state with a sound buffer: `ts` are the tokens closed by a
comma (the ID first), `last` is the field closed by `*`. -/
theorem feed_sentence (p : GPSParser) (hinv : BufInv p) (ts : List (List Nat))
    (last : List Nat) (h1 h2 a b T : Nat)
    (hts : ∀ t ∈ ts, TokenOK t) (hlast : TokenOK last)
    (ha : hexDigitValue h1 = some a) (hb : hexDigitValue h2 = some b)
    (hT : T = 13 ∨ T = 10) :
    feed p (sentence (closeAll ts ++ last) h1 h2 T) =
      some (finish { ts.foldl closeTok (started p.valid p.r_checksum) with
                       checksum := xorFrom 0 (closeAll ts ++ last),
                       state := NMEA_CHECKSUM } a b) := by
  have hs0 : InPayload (started p.valid p.r_checksum) := Or.inl rfl
  have hc0 : Clean (started p.valid p.r_checksum) := ⟨rfl, rfl⟩
  have e : sentence (closeAll ts ++ last) h1 h2 T =
      [36] ++ (closeAll ts ++ ((last ++ [42]) ++ [h1, h2, T])) := by
    simp [sentence]
  rw [e, feed_append]
  simp only [feed, nmea_parse_dollar p hinv, Option.some_bind]
  rw [feed_append, feed_closeAll ts _ hc0 hs0 hts]
  simp only [Option.some_bind]
  rw [feed_append, feed_last _ last (foldl_closeTok_clean ts _ hc0 hs0)
    (foldl_closeTok_inPayload ts _ hs0) hlast]
  simp only [Option.some_bind]
  rw [feed_tail _ h1 h2 a b T rfl ha hb hT, foldl_closeTok_checksum ts _ hs0, xorFrom_append]
  rfl

/-! ## Resolution of the address field, and the data phase -/

theorem idOf_pad_kind (k : nmea_id) (x : Nat) (rest : List Nat) (hk : k ≠ NMEA_ID_OTHER)
    (hx : TalkerOK x) : idOf (pad (71 :: x :: kindChars k ++ rest)) = k := by
  cases k with
  | NMEA_ID_OTHER => exact absurd rfl hk
  | NMEA_ID_RMC => rcases hx with rfl | rfl | rfl | rfl <;> simp [idOf, pad, kindChars]
  | NMEA_ID_GGA => rcases hx with rfl | rfl | rfl | rfl <;> simp [idOf, pad, kindChars]

theorem closeTok_id_state (p : GPSParser) (t : List Nat) (hs : p.state = NMEA_ID)
    (hk : idOf (pad t) ≠ NMEA_ID_OTHER) :
    (closeTok p t).state = NMEA_DATA ∧ (closeTok p t).id = idOf (pad t) := by
  simp [closeTok, hs, hk]

theorem closeTok_data (p : GPSParser) (t : List Nat) (hs : p.state = NMEA_DATA) :
    (closeTok p t).state = NMEA_DATA ∧ (closeTok p t).id = p.id := by
  simp [closeTok, hs]

theorem foldl_closeTok_data (ts : List (List Nat)) (p : GPSParser) (hs : p.state = NMEA_DATA) :
    (ts.foldl closeTok p).state = NMEA_DATA ∧ (ts.foldl closeTok p).id = p.id := by
  induction ts generalizing p with
  | nil => exact ⟨hs, rfl⟩
  | cons t ts ih =>
    obtain ⟨h1, h2⟩ := closeTok_data p t hs
    obtain ⟨g1, g2⟩ := ih (closeTok p t) h1
    exact ⟨g1, by rw [List.foldl_cons, g2, h2]⟩

/-! ## Decoding of data fields -/

theorem str2decimal_eq (buf : List Nat) (off c d : Nat) (hc : buf.getD off 0 = c)
    (hd : buf.getD (off + 1) 0 = d) (h1 : IsDigit c) (h2 : IsDigit d) :
    str2decimal buf off = twoDigits c d := by
  unfold str2decimal twoDigits
  unfold IsDigit at h1 h2
  rw [hc, hd]
  omega

theorem closeTok_dataAt (p : GPSParser) (t : List Nat) (k : nmea_id) (n : Nat)
    (h : DataAt p k n) : DataAt (closeTok p t) k ((n + 1) % 256) := by
  obtain ⟨hs, hi, hn⟩ := h
  simp [DataAt, closeTok, hs, hi, hn]

theorem data_rmc_reader_skip (p : GPSParser)
    (h : (p.token_number ≠ 0 ∧ p.token_number ≠ 1 ∧ p.token_number ≠ 8) ∨ p.buf.getD 0 0 = 0) :
    outputs (data_rmc_reader p) = outputs p := by
  unfold data_rmc_reader
  split_ifs with h0
  · rfl
  · rcases h with ⟨n0, n1, n8⟩ | h
    · split
      · next e => exact absurd e n0
      · next e => exact absurd e n1
      · next e => exact absurd e n8
      · rfl
    · exact absurd h h0

theorem data_gga_reader_skip (p : GPSParser)
    (h : p.token_number ≠ 6 ∨ p.buf.getD 0 0 = 0) :
    outputs (data_gga_reader p) = outputs p := by
  unfold data_gga_reader
  split_ifs with h0
  · rfl
  · rcases h with n6 | h
    · split
      · next e => exact absurd e n6
      · rfl
    · exact absurd h h0

theorem dispatch_skip (p : GPSParser)
    (h : ¬ decodes p.id p.token_number ∨ p.buf.getD 0 0 = 0) :
    outputs (dispatch p) = outputs p := by
  unfold dispatch
  split
  · next e =>
    apply data_rmc_reader_skip
    rcases h with h | h
    · left
      simp only [decodes, e, true_and, false_and, or_false, reduceCtorEq] at h
      omega
    · exact Or.inr h
  · next e =>
    apply data_gga_reader_skip
    rcases h with h | h
    · left
      simp only [decodes, e, true_and, false_and, false_or, reduceCtorEq] at h
      exact h
    · exact Or.inr h
  · rfl

/-- What `closeTok` does to the output fields in state `NMEA_DATA`. -/
theorem closeTok_outputs (p : GPSParser) (t : List Nat) (hs : p.state = NMEA_DATA) :
    outputs (closeTok p t) =
      outputs (dispatch { p with checksum := xorFrom p.checksum t, buf := pad t,
                                 buf_pos := t.length }) := by
  simp [closeTok, hs, outputs]

/-- A field that is empty for the reader, or at an index its kind does not decode, changes
no output field. -/
theorem closeTok_skip (p : GPSParser) (t : List Nat) (hs : p.state = NMEA_DATA)
    (h : ¬ decodes p.id p.token_number ∨ (pad t).getD 0 0 = 0) :
    outputs (closeTok p t) = outputs p := by
  rw [closeTok_outputs p t hs]
  exact dispatch_skip
    { p with checksum := xorFrom p.checksum t, buf := pad t, buf_pos := t.length } h

/-- A run of fields at indices the kind does not decode: `n` counts fields without
wrapping, the parser's 8-bit index is `n % 256`. -/
theorem foldl_closeTok_skip (ts : List (List Nat)) (p : GPSParser) (k : nmea_id) (n : Nat)
    (h : DataAt p k (n % 256))
    (hsk : ∀ m, n ≤ m → m < n + ts.length → ¬ decodes k (m % 256)) :
    outputs (ts.foldl closeTok p) = outputs p ∧
      DataAt (ts.foldl closeTok p) k ((n + ts.length) % 256) := by
  induction ts generalizing p n with
  | nil => exact ⟨rfl, h⟩
  | cons t ts ih =>
    have hd := closeTok_dataAt p t k (n % 256) h
    have e : (n % 256 + 1) % 256 = (n + 1) % 256 := by omega
    rw [e] at hd
    obtain ⟨hs, hi, hn⟩ := h
    have h1 : outputs (closeTok p t) = outputs p :=
      closeTok_skip p t hs (Or.inl (by
        rw [hi, hn]
        exact hsk n (le_refl n) (by simp)))
    obtain ⟨g1, g2⟩ := ih (closeTok p t) (n + 1) hd (fun m hm1 hm2 =>
      hsk m (by omega) (by simp only [List.length_cons]; omega))
    refine ⟨by rw [List.foldl_cons, g1, h1], ?_⟩
    have e2 : n + (t :: ts).length = n + 1 + ts.length := by
      simp only [List.length_cons]; omega
    rw [List.foldl_cons, e2]
    exact g2

/-- RMC field 0: the time `hhmmss.ss`. -/
theorem closeTok_rmc_time (p : GPSParser) (c0 c1 c2 c3 c4 c5 c6 c7 c8 : Nat)
    (h : DataAt p NMEA_ID_RMC 0)
    (hd : ∀ c ∈ [c0, c1, c2, c3, c4, c5, c7, c8], IsDigit c) :
    outputs (closeTok p [c0, c1, c2, c3, c4, c5, c6, c7, c8]) =
      { outputs p with hour := twoDigits c0 c1, minute := twoDigits c2 c3,
                       second := twoDigits c4 c5, sub_sec := twoDigits c7 c8 } := by
  obtain ⟨hs, hi, hn⟩ := h
  simp only [List.mem_cons, List.mem_singleton, List.not_mem_nil, or_false,
    forall_eq_or_imp, forall_eq] at hd
  obtain ⟨d0, d1, d2, d3, d4, d5, d7, d8⟩ := hd
  have hne : c0 ≠ 0 := by unfold IsDigit at d0; omega
  rw [closeTok_outputs p _ hs]
  simp only [dispatch, hi, data_rmc_reader, hn]
  have g0 : (pad [c0, c1, c2, c3, c4, c5, c6, c7, c8]).getD 0 0 = c0 := by simp [pad]
  rw [if_neg (by rw [g0]; exact hne)]
  simp only [outputs]
  rw [str2decimal_eq _ 0 c0 c1 (by simp [pad]) (by simp [pad]) d0 d1,
    str2decimal_eq _ 2 c2 c3 (by simp [pad]) (by simp [pad]) d2 d3,
    str2decimal_eq _ 4 c4 c5 (by simp [pad]) (by simp [pad]) d4 d5,
    str2decimal_eq _ 7 c7 c8 (by simp [pad]) (by simp [pad]) d7 d8]

/-- RMC field 1: the status. -/
theorem closeTok_rmc_status (p : GPSParser) (c : Nat) (rest : List Nat)
    (h : DataAt p NMEA_ID_RMC 1) (hc : c ≠ 0) :
    outputs (closeTok p (c :: rest)) = { outputs p with valid := c } := by
  obtain ⟨hs, hi, hn⟩ := h
  rw [closeTok_outputs p _ hs]
  simp only [dispatch, hi, data_rmc_reader, hn]
  have g0 : (pad (c :: rest)).getD 0 0 = c := by simp [pad]
  rw [if_neg (by rw [g0]; exact hc)]
  simp only [outputs, g0]

/-- RMC field 8: the date `ddmmyy`. -/
theorem closeTok_rmc_date (p : GPSParser) (c0 c1 c2 c3 c4 c5 : Nat)
    (h : DataAt p NMEA_ID_RMC 8)
    (hd : ∀ c ∈ [c0, c1, c2, c3, c4, c5], IsDigit c) :
    outputs (closeTok p [c0, c1, c2, c3, c4, c5]) =
      { outputs p with day := twoDigits c0 c1, month := twoDigits c2 c3,
                       year := twoDigits c4 c5 } := by
  obtain ⟨hs, hi, hn⟩ := h
  simp only [List.mem_cons, List.mem_singleton, List.not_mem_nil, or_false,
    forall_eq_or_imp, forall_eq] at hd
  obtain ⟨d0, d1, d2, d3, d4, d5⟩ := hd
  have hne : c0 ≠ 0 := by unfold IsDigit at d0; omega
  rw [closeTok_outputs p _ hs]
  simp only [dispatch, hi, data_rmc_reader, hn]
  have g0 : (pad [c0, c1, c2, c3, c4, c5]).getD 0 0 = c0 := by simp [pad]
  rw [if_neg (by rw [g0]; exact hne)]
  simp only [outputs]
  rw [str2decimal_eq _ 0 c0 c1 (by simp [pad]) (by simp [pad]) d0 d1,
    str2decimal_eq _ 2 c2 c3 (by simp [pad]) (by simp [pad]) d2 d3,
    str2decimal_eq _ 4 c4 c5 (by simp [pad]) (by simp [pad]) d4 d5]

/-- GGA field 6: the number of satellites. -/
theorem closeTok_gga_nsat (p : GPSParser) (c0 c1 : Nat)
    (h : DataAt p NMEA_ID_GGA 6) (h0 : IsDigit c0) (h1 : IsDigit c1) :
    outputs (closeTok p [c0, c1]) = { outputs p with nsat := twoDigits c0 c1 } := by
  obtain ⟨hs, hi, hn⟩ := h
  have hne : c0 ≠ 0 := by unfold IsDigit at h0; omega
  rw [closeTok_outputs p _ hs]
  simp only [dispatch, hi, data_gga_reader, hn]
  have g0 : (pad [c0, c1]).getD 0 0 = c0 := by simp [pad]
  rw [if_neg (by rw [g0]; exact hne)]
  simp only [outputs]
  rw [str2decimal_eq _ 0 c0 c1 (by simp [pad]) (by simp [pad]) h0 h1]

/-! ## Whole RMC and GGA sentences -/

theorem closeTok_id_outputs (p : GPSParser) (t : List Nat) (hs : p.state = NMEA_ID) :
    outputs (closeTok p t) = outputs p ∧ (closeTok p t).token_number = p.token_number := by
  simp [closeTok, hs, outputs]

theorem finish_outputs (q : GPSParser) (a b : Nat) : outputs (finish q a b) = outputs q := rfl

theorem finish_flags_of_id (q : GPSParser) (a b : Nat) :
    (q.id = NMEA_ID_RMC → q.nsat_message_ready = false →
      (finish q a b).nsat_message_ready = false) ∧
    (q.id = NMEA_ID_GGA → q.time_message_ready = false →
      (finish q a b).time_message_ready = false) := by
  constructor <;> intro h1 h2 <;> simp [finish, h1, h2]

theorem finish_time_iff (q : GPSParser) (a b : Nat) (hid : q.id = NMEA_ID_RMC)
    (hf : q.time_message_ready = false) :
    (finish q a b).time_message_ready = true ↔ q.checksum = 16 * a + b := by
  simp [finish, hid, hf]

theorem finish_nsat_iff (q : GPSParser) (a b : Nat) (hid : q.id = NMEA_ID_GGA)
    (hf : q.nsat_message_ready = false) :
    (finish q a b).nsat_message_ready = true ↔ q.checksum = 16 * a + b := by
  simp [finish, hid, hf]

theorem construct_spec (v : Nat) :
    ∃ p, construct v = some p ∧ BufInv p ∧ p.valid = v ∧ p.r_checksum = 0 := by
  refine ⟨_, rfl, bufInv_construct v _ rfl, rfl, rfl⟩

theorem run_eq (v : Nat) (p : GPSParser) (cs : List Nat) (hc : construct v = some p) :
    run v cs = feed p cs := by
  unfold run
  rw [hc]
  rfl

theorem run_append (v : Nat) (s1 s2 : List Nat) (q : GPSParser) (h : run v s1 = some q) :
    run v (s1 ++ s2) = feed q s2 := by
  unfold run at h ⊢
  cases hc : construct v with
  | none => simp [hc] at h
  | some p0 =>
    simp only [hc, Option.some_bind] at h ⊢
    rw [feed_append, h]
    rfl

/-- The state after the ID token of a decoded kind, right after `$`. -/
theorem closeTok_started (v r x : Nat) (k : nmea_id) (rest : List Nat)
    (hk : k ≠ NMEA_ID_OTHER) (hx : TalkerOK x) :
    DataAt (closeTok (started v r) (71 :: x :: kindChars k ++ rest)) k 0 ∧
    outputs (closeTok (started v r) (71 :: x :: kindChars k ++ rest)) =
      outputs (started v r) := by
  have hres := idOf_pad_kind k x rest hk hx
  obtain ⟨c1, c2⟩ := closeTok_id_state (started v r) (71 :: x :: kindChars k ++ rest) rfl
    (by rw [hres]; exact hk)
  obtain ⟨o1, o2⟩ := closeTok_id_outputs (started v r) (71 :: x :: kindChars k ++ rest) rfl
  exact ⟨⟨c1, c2.trans hres, o2⟩, o1⟩

/-- An RMC sentence with time, status and date fields, fed in any state with a sound buffer:
the outputs are the ones decoded from the sentence, and `time_message_ready` tells whether
the checksum digits match. -/
theorem rmc_sentence (p : GPSParser) (hinv : BufInv p) (x : Nat)
    (c0 c1 c2 c3 c4 c5 c7 c8 st : Nat) (strest : List Nat) (mid : List (List Nat))
    (d0 d1 d2 d3 d4 d5 : Nat) (more : List (List Nat)) (last : List Nat)
    (h1 h2 a b T : Nat)
    (hx : TalkerOK x)
    (htime : ∀ c ∈ [c0, c1, c2, c3, c4, c5, c7, c8], IsDigit c)
    (hst : st ≠ 0) (hstok : TokenOK (st :: strest))
    (hmid : mid.length = 6) (hmidok : ∀ f ∈ mid, TokenOK f)
    (hdate : ∀ c ∈ [d0, d1, d2, d3, d4, d5], IsDigit c)
    (hmore : ∀ f ∈ more, TokenOK f) (hcount : 9 + more.length ≤ 256)
    (hl : TokenOK last)
    (ha : hexDigitValue h1 = some a) (hb : hexDigitValue h2 = some b)
    (hT : Terminator T) :
    ∃ q, feed p (sentence (joinFields ([71, x, 82, 77, 67] ::
            [c0, c1, c2, c3, c4, c5, 46, c7, c8] :: (st :: strest) ::
            (mid ++ [d0, d1, d2, d3, d4, d5] :: more) ++ [last])) h1 h2 T) = some q ∧
      outputs q = { hour := twoDigits c0 c1, minute := twoDigits c2 c3,
                    second := twoDigits c4 c5, sub_sec := twoDigits c7 c8,
                    day := twoDigits d0 d1, month := twoDigits d2 d3,
                    year := twoDigits d4 d5, valid := st, nsat := 0 } ∧
      q.nsat_message_ready = false ∧
      (q.time_message_ready = true ↔
        16 * a + b = nmeaChecksum (joinFields ([71, x, 82, 77, 67] ::
            [c0, c1, c2, c3, c4, c5, 46, c7, c8] :: (st :: strest) ::
            (mid ++ [d0, d1, d2, d3, d4, d5] :: more) ++ [last]))) := by
  have hdig : ∀ c, IsDigit c → c ≠ 36 ∧ c ≠ 42 ∧ c ≠ 44 := by
    intro c hc; unfold IsDigit at hc; omega
  simp only [List.mem_cons, List.mem_singleton, List.not_mem_nil, or_false,
    forall_eq_or_imp, forall_eq] at htime hdate
  have hts : ∀ t ∈ [71, x, 82, 77, 67] :: [c0, c1, c2, c3, c4, c5, 46, c7, c8] ::
      (st :: strest) :: (mid ++ [d0, d1, d2, d3, d4, d5] :: more), TokenOK t := by
    intro t ht
    simp only [List.mem_cons, List.mem_append] at ht
    rcases ht with rfl | rfl | rfl | ht | rfl | ht
    · refine ⟨by simp, ?_⟩
      rcases hx with rfl | rfl | rfl | rfl <;> simp
    · obtain ⟨t0, t1, t2, t3, t4, t5, t7, t8⟩ := htime
      refine ⟨by simp, ?_⟩
      simp only [List.mem_cons, List.mem_singleton, List.not_mem_nil, or_false,
        forall_eq_or_imp, forall_eq]
      exact ⟨hdig _ t0, hdig _ t1, hdig _ t2, hdig _ t3, hdig _ t4, hdig _ t5, by decide,
        hdig _ t7, hdig _ t8⟩
    · exact hstok
    · exact hmidok t ht
    · obtain ⟨t0, t1, t2, t3, t4, t5⟩ := hdate
      refine ⟨by simp, ?_⟩
      simp only [List.mem_cons, List.mem_singleton, List.not_mem_nil, or_false,
        forall_eq_or_imp, forall_eq]
      exact ⟨hdig _ t0, hdig _ t1, hdig _ t2, hdig _ t3, hdig _ t4, hdig _ t5⟩
    · exact hmore t ht
  rw [joinFields_append_last]
  refine ⟨_, feed_sentence p hinv _ last h1 h2 a b T hts hl ha hb hT, ?_⟩
  -- the states after the ID, the time, the status, the six middle fields, the date, the rest
  obtain ⟨a1, o1⟩ := closeTok_started p.valid p.r_checksum x NMEA_ID_RMC [] (by decide) hx
  simp only [kindChars, List.append_nil, List.cons_append, List.nil_append] at a1 o1
  have o2 := closeTok_rmc_time _ c0 c1 c2 c3 c4 c5 46 c7 c8 a1 (by
    simp only [List.mem_cons, List.mem_singleton, List.not_mem_nil, or_false,
      forall_eq_or_imp, forall_eq]
    exact htime)
  have a2 := closeTok_dataAt _ [c0, c1, c2, c3, c4, c5, 46, c7, c8] _ _ a1
  have o3 := closeTok_rmc_status _ st strest a2 hst
  have a3 := closeTok_dataAt _ (st :: strest) _ _ a2
  obtain ⟨o4, a4⟩ := foldl_closeTok_skip mid _ NMEA_ID_RMC 2 a3 (by
    intro m hm1 hm2
    rw [hmid] at hm2
    simp only [decodes, true_and, false_and, or_false, reduceCtorEq]
    omega)
  rw [hmid] at a4
  have o5 := closeTok_rmc_date _ d0 d1 d2 d3 d4 d5 a4 (by
    simp only [List.mem_cons, List.mem_singleton, List.not_mem_nil, or_false,
      forall_eq_or_imp, forall_eq]
    exact hdate)
  have a5 := closeTok_dataAt _ [d0, d1, d2, d3, d4, d5] _ _ a4
  obtain ⟨o6, a6⟩ := foldl_closeTok_skip more _ NMEA_ID_RMC 9 a5 (by
    intro m hm1 hm2
    simp only [decodes, true_and, false_and, or_false, reduceCtorEq]
    omega)
  obtain ⟨f1, f2, _⟩ := foldl_closeTok_flags ([71, x, 82, 77, 67] ::
      [c0, c1, c2, c3, c4, c5, 46, c7, c8] :: (st :: strest) ::
      (mid ++ [d0, d1, d2, d3, d4, d5] :: more)) (started p.valid p.r_checksum)
  simp only [List.foldl_cons, List.foldl_append] at f1 f2 ⊢
  refine ⟨?_, ?_, ?_⟩
  · rw [finish_outputs]
    show outputs (List.foldl closeTok _ more) = _
    rw [o6, o5, o4, o3, o2, o1]
    rfl
  · exact (finish_flags_of_id _ a b).1 a6.2.1 f2
  · refine Iff.trans (finish_time_iff _ a b ?_ ?_) ⟨fun h => h.symm, fun h => h.symm⟩
    · exact a6.2.1
    · exact f1

/-- A GGA sentence whose field 6 is two digits, fed in any state with a sound buffer. -/
theorem gga_sentence (p : GPSParser) (hinv : BufInv p) (x : Nat)
    (pre : List (List Nat)) (c0 c1 : Nat) (more : List (List Nat)) (last : List Nat)
    (h1 h2 a b T : Nat)
    (hx : TalkerOK x)
    (hpre : pre.length = 6) (hpreok : ∀ f ∈ pre, TokenOK f)
    (hc0 : IsDigit c0) (hc1 : IsDigit c1)
    (hmore : ∀ f ∈ more, TokenOK f) (hcount : 7 + more.length ≤ 256)
    (hl : TokenOK last)
    (ha : hexDigitValue h1 = some a) (hb : hexDigitValue h2 = some b)
    (hT : Terminator T) :
    ∃ q, feed p (sentence (joinFields ([71, x, 71, 71, 65] ::
            (pre ++ [c0, c1] :: more) ++ [last])) h1 h2 T) = some q ∧
      outputs q = { hour := 0, minute := 0, second := 0, sub_sec := 0, day := 0, month := 0,
                    year := 0, valid := p.valid, nsat := twoDigits c0 c1 } ∧
      q.time_message_ready = false ∧
      (q.nsat_message_ready = true ↔
        16 * a + b = nmeaChecksum (joinFields ([71, x, 71, 71, 65] ::
            (pre ++ [c0, c1] :: more) ++ [last]))) := by
  have hdig : ∀ c, IsDigit c → c ≠ 36 ∧ c ≠ 42 ∧ c ≠ 44 := by
    intro c hc; unfold IsDigit at hc; omega
  have hts : ∀ t ∈ [71, x, 71, 71, 65] :: (pre ++ [c0, c1] :: more), TokenOK t := by
    intro t ht
    simp only [List.mem_cons, List.mem_append] at ht
    rcases ht with rfl | ht | rfl | ht
    · refine ⟨by simp, ?_⟩
      rcases hx with rfl | rfl | rfl | rfl <;> simp
    · exact hpreok t ht
    · refine ⟨by simp, ?_⟩
      simp only [List.mem_cons, List.mem_singleton, List.not_mem_nil, or_false,
        forall_eq_or_imp, forall_eq]
      exact ⟨hdig _ hc0, hdig _ hc1⟩
    · exact hmore t ht
  rw [joinFields_append_last]
  refine ⟨_, feed_sentence p hinv _ last h1 h2 a b T hts hl ha hb hT, ?_⟩
  obtain ⟨a1, o1⟩ := closeTok_started p.valid p.r_checksum x NMEA_ID_GGA [] (by decide) hx
  simp only [kindChars, List.append_nil, List.cons_append, List.nil_append] at a1 o1
  obtain ⟨o2, a2⟩ := foldl_closeTok_skip pre _ NMEA_ID_GGA 0 a1 (by
    intro m hm1 hm2
    rw [hpre] at hm2
    simp only [decodes, true_and, false_and, false_or, reduceCtorEq]
    omega)
  rw [hpre] at a2
  have o3 := closeTok_gga_nsat _ c0 c1 a2 hc0 hc1
  have a3 := closeTok_dataAt _ [c0, c1] _ _ a2
  obtain ⟨o4, a4⟩ := foldl_closeTok_skip more _ NMEA_ID_GGA 7 a3 (by
    intro m hm1 hm2
    simp only [decodes, true_and, false_and, false_or, reduceCtorEq]
    omega)
  obtain ⟨f1, f2, _⟩ := foldl_closeTok_flags ([71, x, 71, 71, 65] ::
      (pre ++ [c0, c1] :: more)) (started p.valid p.r_checksum)
  simp only [List.foldl_cons, List.foldl_append] at f1 f2 ⊢
  refine ⟨?_, ?_, ?_⟩
  · rw [finish_outputs]
    show outputs (List.foldl closeTok _ more) = _
    rw [o4, o3, o2, o1]
    rfl
  · exact (finish_flags_of_id _ a b).2 a4.2.1 f1
  · refine Iff.trans (finish_nsat_iff _ a b ?_ ?_) ⟨fun h => h.symm, fun h => h.symm⟩
    · exact a4.2.1
    · exact f2

/-! ## Restarting at `$` -/

theorem agree_started (v r w s : Nat) : Agree (started v r) (started w s) := rfl

theorem closeTok_agree (p q : GPSParser) (t : List Nat) (h : Agree p q) :
    Agree (closeTok p t) (closeTok q t) := by
  obtain ⟨st, id, ck, tn, bp, b, tr, ho, mi, se, ss, da, mo, ye, va, nr, ns, rc⟩ := p
  obtain ⟨st', id', ck', tn', bp', b', tr', ho', mi', se', ss', da', mo', ye', va', nr', ns',
    rc'⟩ := q
  simp only [Agree, GPSParser.mk.injEq, and_true, true_and] at h
  obtain ⟨rfl, rfl, rfl, rfl, rfl, rfl, rfl, rfl, rfl, rfl, rfl, rfl, rfl, rfl, rfl, rfl⟩ := h
  cases st <;> cases id <;>
    simp [Agree, closeTok, dispatch, data_rmc_reader, data_gga_reader] <;>
    (try split_ifs) <;> (try simp) <;> split <;> simp

theorem foldl_closeTok_agree (ts : List (List Nat)) (p q : GPSParser) (h : Agree p q) :
    Agree (ts.foldl closeTok p) (ts.foldl closeTok q) := by
  induction ts generalizing p q with
  | nil => exact h
  | cons t ts ih => exact ih _ _ (closeTok_agree p q t h)

theorem finish_agree (p q : GPSParser) (c a b : Nat) (h : Agree p q) :
    Agree (finish { p with checksum := c, state := NMEA_CHECKSUM } a b)
      (finish { q with checksum := c, state := NMEA_CHECKSUM } a b) := by
  simp only [Agree, GPSParser.mk.injEq, and_true, true_and] at h
  obtain ⟨e1, e2, e3, e4, e5, e6, e7, e8, e9, e10, e11, e12, e13, e14, e15, e16⟩ := h
  simp [Agree, finish, *]

/-! ## Empty fields, and the address field in full -/

theorem dispatch_empty (p : GPSParser) (h : p.buf.getD 0 0 = 0) : dispatch p = p := by
  unfold dispatch data_rmc_reader data_gga_reader
  split
  · rw [if_pos h]
  · rw [if_pos h]
  · rfl

theorem buf_of_empty (p : GPSParser) (hinv : BufInv p) (hb : p.buf_pos = 0) :
    p.buf = pad [] := by
  rw [pad_nil]
  exact eq_replicate_of_getD p.buf 64 hinv.len (fun i => hinv.tail i (by omega))

theorem idOf_getD (b : List Nat) (k : nmea_id) (hk : k ≠ NMEA_ID_OTHER) (h : idOf b = k) :
    b.getD 0 0 = 71 ∧ TalkerOK (b.getD 1 0) ∧
      [b.getD 2 0, b.getD 3 0, b.getD 4 0] = kindChars k := by
  unfold idOf at h
  split_ifs at h with g0 g1 g2 g3
  · exact absurd h.symm hk
  · exact absurd h.symm hk
  · subst h
    refine ⟨by simpa using g0, ?_, by rw [g2.1, g2.2.1, g2.2.2]; rfl⟩
    unfold TalkerOK
    by_contra hc
    exact g1 (by omega)
  · subst h
    refine ⟨by simpa using g0, ?_, by rw [g3.1, g3.2.1, g3.2.2]; rfl⟩
    unfold TalkerOK
    by_contra hc
    exact g1 (by omega)
  · exact absurd h.symm hk

theorem pad_getD_lt (t : List Nat) (i : Nat) (h : i < t.length) :
    (pad t).getD i 0 = t.getD i 0 := by
  unfold pad
  simp [List.getD_eq_getElem?_getD, List.getElem?_append_left h]

/-- The token resolves to a decoded kind exactly when its first five characters are `G`,
one of `A L N P`, and the three characters of the kind. -/
theorem idOf_pad_iff (t : List Nat) (k : nmea_id) (hk : k ≠ NMEA_ID_OTHER) :
    idOf (pad t) = k ↔ ∃ x rest, TalkerOK x ∧ t = 71 :: x :: kindChars k ++ rest := by
  constructor
  · intro h
    obtain ⟨h0, h1, h2⟩ := idOf_getD (pad t) k hk h
    have hlen : 5 ≤ t.length := by
      by_contra hlt
      have hz : (pad t).getD 4 0 = 0 := pad_getD_tail t 4 (by omega)
      rw [hz] at h2
      cases k <;> simp [kindChars] at h2 hk
    rcases t with _ | ⟨a, _ | ⟨b, _ | ⟨c, _ | ⟨d, _ | ⟨e, rest⟩⟩⟩⟩⟩ <;>
      simp only [List.length_nil, List.length_cons] at hlen <;> try omega
    simp only [pad, List.cons_append, List.getD_cons_zero, List.getD_cons_succ] at h0 h1 h2
    refine ⟨b, rest, h1, ?_⟩
    rw [← h2, h0]
    rfl
  · rintro ⟨x, rest, hx, rfl⟩
    exact idOf_pad_kind k x rest hk hx

/-! ## The idle states, and two checksum digits -/

theorem nmea_parse_wait (p : GPSParser) (c : Nat) (hs : p.state = NMEA_WAIT) (hc : c ≠ 36) :
    nmea_parse p c = some p := by
  simp [nmea_parse, hs, hc]

/-! ## Two-digit fields -/

theorem str2decimal_nul (buf : List Nat) (off : Nat) (h0 : buf.getD off 0 = 0)
    (h1 : buf.getD (off + 1) 0 = 0) : str2decimal buf off = 240 := by
  unfold str2decimal
  rw [h0, h1]
  rfl

theorem str2decimal_le (buf : List Nat) (off : Nat) (h0 : IsDigit (buf.getD off 0))
    (h1 : IsDigit (buf.getD (off + 1) 0)) : str2decimal buf off ≤ 99 := by
  rw [str2decimal_eq buf off _ _ rfl rfl h0 h1]
  unfold twoDigits
  unfold IsDigit at h0 h1
  omega

/-- RMC field 0 without a fraction: the time `hhmmss`. -/
theorem closeTok_rmc_time6 (p : GPSParser) (c0 c1 c2 c3 c4 c5 : Nat)
    (h : DataAt p NMEA_ID_RMC 0)
    (hd : ∀ c ∈ [c0, c1, c2, c3, c4, c5], IsDigit c) :
    outputs (closeTok p [c0, c1, c2, c3, c4, c5]) =
      { outputs p with hour := twoDigits c0 c1, minute := twoDigits c2 c3,
                       second := twoDigits c4 c5, sub_sec := 240 } := by
  obtain ⟨hs, hi, hn⟩ := h
  simp only [List.mem_cons, List.mem_singleton, List.not_mem_nil, or_false,
    forall_eq_or_imp, forall_eq] at hd
  obtain ⟨d0, d1, d2, d3, d4, d5⟩ := hd
  have hne : c0 ≠ 0 := by unfold IsDigit at d0; omega
  rw [closeTok_outputs p _ hs]
  simp only [dispatch, hi, data_rmc_reader, hn]
  have g0 : (pad [c0, c1, c2, c3, c4, c5]).getD 0 0 = c0 := by simp [pad]
  rw [if_neg (by rw [g0]; exact hne)]
  simp only [outputs]
  rw [str2decimal_eq _ 0 c0 c1 (by simp [pad]) (by simp [pad]) d0 d1,
    str2decimal_eq _ 2 c2 c3 (by simp [pad]) (by simp [pad]) d2 d3,
    str2decimal_eq _ 4 c4 c5 (by simp [pad]) (by simp [pad]) d4 d5,
    str2decimal_nul _ 7 (pad_getD_tail _ 7 (by simp)) (pad_getD_tail _ 8 (by simp))]

/-! ## Every step, whatever the character -/

/-- One step from a state whose fill is at most `n`: a delimiter empties the buffer, any
other character needs room for one more. -/
theorem fits_step (p : GPSParser) (n c : Nat) (h : Fits p n)
    (hc : (c = 36 ∨ c = 42 ∨ c = 44) ∨ n < 64) :
    ∃ q, nmea_parse p c = some q ∧
      Fits q (if c = 36 ∨ c = 42 ∨ c = 44 then 0 else n + 1) := by
  obtain ⟨hinv, hle, hidle⟩ := h
  by_cases h36 : c = 36
  · subst h36
    exact ⟨_, nmea_parse_dollar p hinv, bufInv_clean _ rfl rfl, by simp [started],
      fun _ => rfl⟩
  by_cases hw : p.state = NMEA_WAIT
  · refine ⟨p, nmea_parse_wait p c hw h36, hinv, ?_, hidle⟩
    rw [hidle (Or.inl hw)]
    exact Nat.zero_le _
  by_cases h42 : c = 42
  · subst h42
    exact ⟨_, nmea_parse_star p hw hinv, bufInv_clean _ rfl rfl, by simp, fun _ => rfl⟩
  by_cases hk : p.state = NMEA_CHECKSUM
  · have hz : p.buf_pos = 0 := hidle (Or.inr hk)
    by_cases he : c = 13 ∨ c = 10
    · refine ⟨_, nmea_parse_eol p c hk he, hinv.of_eq rfl rfl, ?_, fun _ => hz⟩
      show p.buf_pos ≤ _
      rw [hz]
      exact Nat.zero_le _
    · refine ⟨_, nmea_parse_digit p c hk ⟨h36, h42, by tauto, by tauto⟩,
        hinv.of_eq rfl rfl, ?_, fun _ => hz⟩
      show p.buf_pos ≤ _
      rw [hz]
      exact Nat.zero_le _
  have hs : p.state = NMEA_ID ∨ p.state = NMEA_DATA := by
    cases hst : p.state <;> simp_all
  by_cases h44 : c = 44
  · subst h44
    rcases hs with hs | hs
    · refine ⟨_, nmea_parse_comma_id p hs hinv, bufInv_clean _ rfl rfl, by simp, fun _ => rfl⟩
    · refine ⟨_, nmea_parse_comma_data p hs hinv, bufInv_clean _ rfl rfl, by simp,
        fun _ => rfl⟩
  · have hn : n < 64 := by
      rcases hc with (h | h | h) | h
      · exact absurd h h36
      · exact absurd h h42
      · exact absurd h h44
      · exact h
    have hlt : p.buf_pos < 64 := by omega
    refine ⟨_, nmea_parse_char p c hs ⟨h36, h42, h44⟩ hlt,
      bufInv_append p c hinv hlt _ rfl rfl, ?_, ?_⟩
    · simp only [h36, h42, h44, or_self, if_false]
      show p.buf_pos + 1 ≤ n + 1
      omega
    · intro hst
      rcases hs with hs | hs <;> rcases hst with hst | hst <;>
        simp [hs] at hst

theorem fits_feed (cs : List Nat) (p : GPSParser) (n : Nat) (h : Fits p n)
    (hf : tokensFit n cs = true) : ∃ q m, feed p cs = some q ∧ Fits q m := by
  induction cs generalizing p n with
  | nil => exact ⟨p, n, rfl, h⟩
  | cons c cs ih =>
    rw [tokensFit] at hf
    by_cases hd : c = 36 ∨ c = 42 ∨ c = 44
    · rw [if_pos hd] at hf
      obtain ⟨q, hq, hfit⟩ := fits_step p n c h (Or.inl hd)
      rw [if_pos hd] at hfit
      obtain ⟨r, m, hr, hm⟩ := ih q 0 hfit hf
      exact ⟨r, m, by rw [feed, hq, Option.some_bind]; exact hr, hm⟩
    · rw [if_neg hd] at hf
      simp only [Bool.and_eq_true, decide_eq_true_eq] at hf
      obtain ⟨q, hq, hfit⟩ := fits_step p n c h (Or.inr hf.1)
      rw [if_neg hd] at hfit
      obtain ⟨r, m, hr, hm⟩ := ih q (n + 1) hfit hf.2
      exact ⟨r, m, by rw [feed, hq, Option.some_bind]; exact hr, hm⟩

theorem tokensFit_take (cs : List Nat) (n k : Nat) (hf : tokensFit n cs = true) :
    tokensFit n (cs.take k) = true := by
  induction cs generalizing n k with
  | nil => simp [tokensFit]
  | cons c cs ih =>
    cases k with
    | zero => simp [tokensFit]
    | succ k =>
      rw [List.take_succ_cons]
      rw [tokensFit] at hf ⊢
      by_cases hd : c = 36 ∨ c = 42 ∨ c = 44
      · rw [if_pos hd] at hf ⊢
        exact ih 0 k hf
      · rw [if_neg hd] at hf ⊢
        simp only [Bool.and_eq_true, decide_eq_true_eq] at hf ⊢
        exact ⟨hf.1, ih (n + 1) k hf.2⟩

theorem fits_construct (v : Nat) (p : GPSParser) (h : construct v = some p) : Fits p 0 := by
  refine ⟨bufInv_construct v p h, ?_, ?_⟩
  · simp only [construct, clear_buf, NMEA_BUFF_SIZE, le_refl, if_true, Option.some.injEq] at h
    subst h
    exact Nat.le_refl 0
  · intro _
    simp only [construct, clear_buf, NMEA_BUFF_SIZE, le_refl, if_true, Option.some.injEq] at h
    subst h
    rfl

/-! ## The ready flags -/

theorem flagsInv_of_false (q : GPSParser) (h1 : q.time_message_ready = false)
    (h2 : q.nsat_message_ready = false) : FlagsInv q := by
  constructor <;> intro h <;> simp [h1, h2] at h

theorem flags_false_of_busy (p : GPSParser) (h : FlagsInv p) (hw : p.state ≠ NMEA_WAIT) :
    p.time_message_ready = false ∧ p.nsat_message_ready = false := by
  constructor
  · cases ht : p.time_message_ready with
    | false => rfl
    | true => exact absurd (h.1 ht).1 hw
  · cases ht : p.nsat_message_ready with
    | false => rfl
    | true => exact absurd (h.2 ht).1 hw

theorem flagsInv_step (p q : GPSParser) (c : Nat) (hinv : BufInv p) (h : FlagsInv p)
    (hq : nmea_parse p c = some q) : FlagsInv q := by
  by_cases h36 : c = 36
  · subst h36
    rw [nmea_parse_dollar p hinv] at hq
    cases hq
    exact flagsInv_of_false _ rfl rfl
  by_cases hw : p.state = NMEA_WAIT
  · rw [nmea_parse_wait p c hw h36] at hq
    cases hq
    exact h
  obtain ⟨f1, f2⟩ := flags_false_of_busy p h hw
  by_cases h42 : c = 42
  · subst h42
    rw [nmea_parse_star p hw hinv] at hq
    cases hq
    exact flagsInv_of_false _ f1 f2
  by_cases hk : p.state = NMEA_CHECKSUM
  · by_cases he : c = 13 ∨ c = 10
    · rw [nmea_parse_eol p c hk he] at hq
      cases hq
      constructor
      · intro ht
        simp only [f1] at ht
        refine ⟨rfl, ?_⟩
        by_contra hne
        simp [hne] at ht
      · intro ht
        simp only [f2] at ht
        refine ⟨rfl, ?_⟩
        by_contra hne
        simp [hne] at ht
    · rw [nmea_parse_digit p c hk ⟨h36, h42, by tauto, by tauto⟩] at hq
      cases hq
      exact flagsInv_of_false _ f1 f2
  have hs : p.state = NMEA_ID ∨ p.state = NMEA_DATA := by
    cases hst : p.state <;> simp_all
  by_cases h44 : c = 44
  · subst h44
    rcases hs with hs | hs
    · rw [nmea_parse_comma_id p hs hinv] at hq
      cases hq
      exact flagsInv_of_false _ f1 f2
    · rw [nmea_parse_comma_data p hs hinv] at hq
      cases hq
      exact flagsInv_of_false _ (by simp [f1]) (by simp [f2])
  · by_cases hlt : p.buf_pos < 64
    · rw [nmea_parse_char p c hs ⟨h36, h42, h44⟩ hlt] at hq
      cases hq
      exact flagsInv_of_false _ f1 f2
    · rcases hs with hs | hs <;>
        simp [nmea_parse, hs, h36, h42, h44, append, NMEA_BUFF_SIZE, hlt] at hq

theorem flagsInv_feed (cs : List Nat) (p q : GPSParser) (hinv : BufInv p) (h : FlagsInv p)
    (hq : feed p cs = some q) : FlagsInv q := by
  induction cs generalizing p with
  | nil =>
    simp only [feed, Option.some.injEq] at hq
    subst hq
    exact h
  | cons c cs ih =>
    rw [feed] at hq
    cases hstep : nmea_parse p c with
    | none => simp [hstep] at hq
    | some r =>
      rw [hstep] at hq
      exact ih r (bufInv_step p r c hinv hstep) (flagsInv_step p r c hinv h hstep)
        (by simpa using hq)

/-! ## The buffer invariant in the words of the source, and payloads as flat sequences -/

theorem tailZero_iff (p : GPSParser) : TailZero p ↔ BufInv p := by
  constructor
  · rintro ⟨h1, h2, h3⟩
    refine ⟨h1, h2, fun i hi => ?_⟩
    by_cases hlt : i < 64
    · exact h3 i hi hlt
    · rw [List.getD_eq_getElem?_getD, List.getElem?_eq_none (by omega)]
      rfl
  · intro h
    exact ⟨h.len, h.pos, fun i hi _ => h.tail i hi⟩

/-- A payload given as a flat sequence without `$` and `*`, fed while reading the ID or a
data field. -/
theorem feed_payload (w : List Nat) (p : GPSParser) (n : Nat) (hs : InPayload p)
    (hinv : BufInv p) (hle : p.buf_pos ≤ n) (hf : tokensFit n w = true)
    (hw : ∀ c ∈ w, c ≠ 36 ∧ c ≠ 42) :
    ∃ q, feed p w = some q ∧ InPayload q ∧ BufInv q ∧
      q.checksum = xorFrom p.checksum w := by
  induction w generalizing p n with
  | nil => exact ⟨p, rfl, hs, hinv, rfl⟩
  | cons c w ih =>
    obtain ⟨h36, h42⟩ := hw c (List.mem_cons_self c w)
    have hw2 : ∀ d ∈ w, d ≠ 36 ∧ d ≠ 42 := fun d hd => hw d (List.mem_cons_of_mem c hd)
    rw [tokensFit] at hf
    by_cases h44 : c = 44
    · subst h44
      rw [if_pos (by simp)] at hf
      rcases hs with hs | hs
      · obtain ⟨q, hq, g1, g2, g3⟩ := ih
          { p with checksum := p.checksum ^^^ 44, id := idOf p.buf,
                   state := if idOf p.buf ≠ NMEA_ID_OTHER then NMEA_DATA else NMEA_ID,
                   buf := pad [], buf_pos := 0 } 0
          (by by_cases hk : idOf p.buf = NMEA_ID_OTHER <;> simp [InPayload, hk])
          (bufInv_clean _ rfl rfl) (Nat.le_refl 0) hf hw2
        refine ⟨q, ?_, g1, g2, ?_⟩
        · rw [feed, nmea_parse_comma_id p hs hinv, Option.some_bind]
          exact hq
        · rw [g3, xorFrom_cons]
      · obtain ⟨q, hq, g1, g2, g3⟩ := ih
          { dispatch p with checksum := p.checksum ^^^ 44,
                            token_number := (p.token_number + 1) % 256,
                            buf := pad [], buf_pos := 0 } 0
          (by simp [InPayload, hs])
          (bufInv_clean _ rfl rfl) (Nat.le_refl 0) hf hw2
        refine ⟨q, ?_, g1, g2, ?_⟩
        · rw [feed, nmea_parse_comma_data p hs hinv, Option.some_bind]
          exact hq
        · rw [g3, xorFrom_cons]
    · rw [if_neg (by simp [h36, h42, h44])] at hf
      simp only [Bool.and_eq_true, decide_eq_true_eq] at hf
      have hlt : p.buf_pos < 64 := by omega
      obtain ⟨q, hq, g1, g2, g3⟩ := ih
        { p with checksum := p.checksum ^^^ (c % 256), buf := p.buf.set p.buf_pos c,
                 buf_pos := p.buf_pos + 1 } (n + 1)
        (by rcases hs with hs | hs <;> simp [InPayload, hs])
        (bufInv_append p c hinv hlt _ rfl rfl) (by simp; omega) hf.2 hw2
      refine ⟨q, ?_, g1, g2, ?_⟩
      · rw [feed, nmea_parse_char p c hs ⟨h36, h42, h44⟩ hlt, Option.some_bind]
        exact hq
      · rw [g3, xorFrom_cons]

/-- While the parser reads the checksum or waits, no character but `$` touches the running
checksum. -/
theorem feed_idle (ds : List Nat) (q : GPSParser)
    (hs : q.state = NMEA_CHECKSUM ∨ q.state = NMEA_WAIT) (hinv : BufInv q)
    (hds : ∀ c ∈ ds, c ≠ 36) :
    ∃ r, feed q ds = some r ∧ r.checksum = q.checksum := by
  induction ds generalizing q with
  | nil => exact ⟨q, rfl, rfl⟩
  | cons c ds ih =>
    have h36 := hds c (List.mem_cons_self c ds)
    have hds2 : ∀ d ∈ ds, d ≠ 36 := fun d hd => hds d (List.mem_cons_of_mem c hd)
    obtain ⟨q1, hq1, hs1, hinv1, hc1⟩ : ∃ q1, nmea_parse q c = some q1 ∧
        (q1.state = NMEA_CHECKSUM ∨ q1.state = NMEA_WAIT) ∧ BufInv q1 ∧
        q1.checksum = q.checksum := by
      rcases hs with hs | hs
      · have hw : q.state ≠ NMEA_WAIT := by simp [hs]
        by_cases h42 : c = 42
        · subst h42
          exact ⟨_, nmea_parse_star q hw hinv, Or.inl rfl, bufInv_clean _ rfl rfl, rfl⟩
        · by_cases he : c = 13 ∨ c = 10
          · exact ⟨_, nmea_parse_eol q c hs he, Or.inr rfl, hinv.of_eq rfl rfl, rfl⟩
          · exact ⟨_, nmea_parse_digit q c hs ⟨h36, h42, by tauto, by tauto⟩, Or.inl hs,
              hinv.of_eq rfl rfl, rfl⟩
      · exact ⟨q, nmea_parse_wait q c hs h36, Or.inr hs, hinv, rfl⟩
    obtain ⟨r, hr, g⟩ := ih q1 hs1 hinv1 hds2
    exact ⟨r, by rw [feed, hq1, Option.some_bind]; exact hr, g.trans hc1⟩

/-! ## Claims -/

/-- C1 (checksum acceptance).  From every reachable parser state, a sentence
`$` ID `,` fields `*` h1 h2 T whose ID token begins with `G`, one of `A L N P`, then `RMC`
(resp. `GGA`), whose tokens have at most 64 characters and contain no `$`, `*`, `,`, whose
two hex digits carry the XOR of the payload bytes and whose terminator is CR or LF, is
consumed without leaving the buffer and sets `time_message_ready` (resp.
`nsat_message_ready`). -/
theorem checksum_acceptance (p : GPSParser) (hr : Reachable p)
    (k : nmea_id) (x : Nat) (idrest : List Nat) (fields : List (List Nat)) (last : List Nat)
    (h1 h2 a b T : Nat)
    (hk : k ≠ NMEA_ID_OTHER) (hx : TalkerOK x)
    (hid : TokenOK (71 :: x :: kindChars k ++ idrest))
    (hf : ∀ f ∈ fields, TokenOK f) (hl : TokenOK last)
    (ha : hexDigitValue h1 = some a) (hb : hexDigitValue h2 = some b)
    (hsum : 16 * a + b =
      nmeaChecksum (joinFields ((71 :: x :: kindChars k ++ idrest) :: fields ++ [last])))
    (hT : Terminator T) :
    ∃ q, feed p (sentence
            (joinFields ((71 :: x :: kindChars k ++ idrest) :: fields ++ [last])) h1 h2 T)
          = some q ∧
      (k = NMEA_ID_RMC → q.time_message_ready = true) ∧
      (k = NMEA_ID_GGA → q.nsat_message_ready = true) := by
  have hj : joinFields ((71 :: x :: kindChars k ++ idrest) :: fields ++ [last]) =
      closeAll ((71 :: x :: kindChars k ++ idrest) :: fields) ++ last :=
    joinFields_append_last ((71 :: x :: kindChars k ++ idrest) :: fields) last
  have hts : ∀ t ∈ (71 :: x :: kindChars k ++ idrest) :: fields, TokenOK t := by
    intro t ht
    rcases List.mem_cons.mp ht with rfl | ht
    · exact hid
    · exact hf t ht
  rw [hj] at hsum ⊢
  refine ⟨_, feed_sentence p (bufInv_of_reachable p hr) _ last h1 h2 a b T hts hl ha hb hT, ?_⟩
  have hres := idOf_pad_kind k x idrest hk hx
  obtain ⟨c1, c2⟩ := closeTok_id_state (started p.valid p.r_checksum)
    (71 :: x :: kindChars k ++ idrest) rfl (by rw [hres]; exact hk)
  obtain ⟨_, d2⟩ := foldl_closeTok_data fields _ c1
  have hid2 : (List.foldl closeTok (started p.valid p.r_checksum)
      ((71 :: x :: kindChars k ++ idrest) :: fields)).id = k := by
    rw [List.foldl_cons, d2, c2, hres]
  constructor
  · intro e
    exact finish_time _ a b hsum.symm (hid2.trans e)
  · intro e
    exact finish_nsat _ a b hsum.symm (hid2.trans e)

/-- Witness of C1: the sentence `$GPRMC,123519.00,A,4807.038,N,01131.000,E,022.4,084.4,230394,003.1,W*44`
and CR, fed to a parser that had abandoned `$GPGGA,12*4` in the middle of its checksum. -/
theorem checksum_acceptance_witness :
    Reachable abandoned ∧
    16 * 4 + 4 = nmeaChecksum (joinFields ((71 :: 80 :: kindChars NMEA_ID_RMC ++ []) ::
        [bytes "123519.00", bytes "A", bytes "4807.038", bytes "N", bytes "01131.000",
         bytes "E", bytes "022.4", bytes "084.4", bytes "230394", bytes "003.1"] ++
        [bytes "W"])) ∧
    (feed abandoned (sentence (joinFields ((71 :: 80 :: kindChars NMEA_ID_RMC ++ []) ::
        [bytes "123519.00", bytes "A", bytes "4807.038", bytes "N", bytes "01131.000",
         bytes "E", bytes "022.4", bytes "084.4", bytes "230394", bytes "003.1"] ++
        [bytes "W"])) 52 52 13)).map (fun q => q.time_message_ready) = some true :=
  ⟨⟨7, bytes "$GPGGA,12*4", by decide⟩, by decide, by
    obtain ⟨q, hq, h, _⟩ := checksum_acceptance abandoned ⟨7, bytes "$GPGGA,12*4", by decide⟩
      NMEA_ID_RMC 80 []
      [bytes "123519.00", bytes "A", bytes "4807.038", bytes "N", bytes "01131.000",
       bytes "E", bytes "022.4", bytes "084.4", bytes "230394", bytes "003.1"]
      (bytes "W") 52 52 4 4 13 (by decide) (by decide) (by decide) (by decide) (by decide)
      (by decide) (by decide) (by decide) (by decide)
    rw [hq]
    simp [h rfl]⟩

/-- C2 (checksum rejection).  From every reachable parser state, a sentence
`$` payload `*` h1 h2 T (tokens of at most 64 characters without `$`, `*`, `,`; two hex
digits; CR or LF) whose hex digits differ from the XOR of the payload bytes is consumed and
leaves both `time_message_ready` and `nsat_message_ready` false, whatever its kind. -/
theorem checksum_rejection (p : GPSParser) (hr : Reachable p)
    (toks : List (List Nat)) (last : List Nat) (h1 h2 a b T : Nat)
    (ht : ∀ t ∈ toks, TokenOK t) (hl : TokenOK last)
    (ha : hexDigitValue h1 = some a) (hb : hexDigitValue h2 = some b)
    (hsum : 16 * a + b ≠ nmeaChecksum (joinFields (toks ++ [last])))
    (hT : Terminator T) :
    ∃ q, feed p (sentence (joinFields (toks ++ [last])) h1 h2 T) = some q ∧
      q.time_message_ready = false ∧ q.nsat_message_ready = false := by
  rw [joinFields_append_last] at hsum ⊢
  refine ⟨_, feed_sentence p (bufInv_of_reachable p hr) toks last h1 h2 a b T ht hl ha hb hT, ?_⟩
  obtain ⟨f1, f2, _⟩ := foldl_closeTok_flags toks (started p.valid p.r_checksum)
  obtain ⟨m1, m2⟩ := finish_mismatch
    { toks.foldl closeTok (started p.valid p.r_checksum) with
        checksum := xorFrom 0 (closeAll toks ++ last), state := NMEA_CHECKSUM } a b
    (fun h => hsum h.symm)
  exact ⟨by rw [m1]; exact f1, by rw [m2]; exact f2⟩

/-- Witness of C2: the sentence of the specification's example with its printed checksum `6A`
(the XOR of the payload is `44`), fed to a freshly constructed parser. -/
theorem checksum_rejection_witness :
    Reachable fresh0 ∧
    16 * 6 + 10 ≠ nmeaChecksum (joinFields ([bytes "GPRMC", bytes "123519.00", bytes "A",
        bytes "4807.038", bytes "N", bytes "01131.000", bytes "E", bytes "022.4",
        bytes "084.4", bytes "230394", bytes "003.1"] ++ [bytes "W"])) ∧
    (feed fresh0 (sentence (joinFields ([bytes "GPRMC", bytes "123519.00", bytes "A",
        bytes "4807.038", bytes "N", bytes "01131.000", bytes "E", bytes "022.4",
        bytes "084.4", bytes "230394", bytes "003.1"] ++ [bytes "W"])) 54 65 10)).map
          (fun q => (q.time_message_ready, q.nsat_message_ready)) = some (false, false) :=
  ⟨⟨0, [], by decide⟩, by decide, by
    obtain ⟨q, hq, h1, h2⟩ := checksum_rejection fresh0 ⟨0, [], by decide⟩
      [bytes "GPRMC", bytes "123519.00", bytes "A", bytes "4807.038", bytes "N",
       bytes "01131.000", bytes "E", bytes "022.4", bytes "084.4", bytes "230394",
       bytes "003.1"]
      (bytes "W") 54 65 6 10 10 (by decide) (by decide) (by decide) (by decide) (by decide)
      (by decide)
    rw [hq, Option.map_some', h1, h2]⟩

/-- C3 (RMC field extraction).  A freshly constructed parser fed a well-formed RMC sentence
(ID `G`, one of `A L N P`, `RMC`; tokens of at most 64 characters without `$`, `*`, `,`; at
most 256 comma-closed data fields, so that the 8-bit field index does not wrap) with a
correct checksum, whose field 0 is `hhmmss.ss`, whose field 1 is a status starting with a
character other than NUL, and whose field 8 is `ddmmyy` closed by a comma, ends with
hour, minute, second, sub_sec, day, month, year equal to the decimal values of the digit
pairs, `valid` equal to the first status character and `time_message_ready` true. -/
theorem rmc_field_extraction (v x : Nat)
    (c0 c1 c2 c3 c4 c5 c7 c8 st : Nat) (strest : List Nat) (mid : List (List Nat))
    (d0 d1 d2 d3 d4 d5 : Nat) (more : List (List Nat)) (last : List Nat)
    (h1 h2 a b T : Nat)
    (hx : TalkerOK x)
    (htime : ∀ c ∈ [c0, c1, c2, c3, c4, c5, c7, c8], IsDigit c)
    (hst : st ≠ 0) (hstok : TokenOK (st :: strest))
    (hmid : mid.length = 6) (hmidok : ∀ f ∈ mid, TokenOK f)
    (hdate : ∀ c ∈ [d0, d1, d2, d3, d4, d5], IsDigit c)
    (hmore : ∀ f ∈ more, TokenOK f) (hcount : 9 + more.length ≤ 256)
    (hl : TokenOK last)
    (ha : hexDigitValue h1 = some a) (hb : hexDigitValue h2 = some b)
    (hsum : 16 * a + b = nmeaChecksum (joinFields ([71, x, 82, 77, 67] ::
            [c0, c1, c2, c3, c4, c5, 46, c7, c8] :: (st :: strest) ::
            (mid ++ [d0, d1, d2, d3, d4, d5] :: more) ++ [last])))
    (hT : Terminator T) :
    ∃ q, run v (sentence (joinFields ([71, x, 82, 77, 67] ::
            [c0, c1, c2, c3, c4, c5, 46, c7, c8] :: (st :: strest) ::
            (mid ++ [d0, d1, d2, d3, d4, d5] :: more) ++ [last])) h1 h2 T) = some q ∧
      q.hour = twoDigits c0 c1 ∧ q.minute = twoDigits c2 c3 ∧ q.second = twoDigits c4 c5 ∧
      q.sub_sec = twoDigits c7 c8 ∧
      q.day = twoDigits d0 d1 ∧ q.month = twoDigits d2 d3 ∧ q.year = twoDigits d4 d5 ∧
      q.valid = st ∧ q.time_message_ready = true := by
  obtain ⟨p0, hc, hinv, _, _⟩ := construct_spec v
  obtain ⟨q, hq, ho, _, hr⟩ := rmc_sentence p0 hinv x c0 c1 c2 c3 c4 c5 c7 c8 st strest mid
    d0 d1 d2 d3 d4 d5 more last h1 h2 a b T hx htime hst hstok hmid hmidok hdate hmore hcount
    hl ha hb hT
  refine ⟨q, (run_eq v p0 _ hc).trans hq, ?_⟩
  simp only [outputs, Outputs.mk.injEq] at ho
  obtain ⟨e1, e2, e3, e4, e5, e6, e7, e8, _⟩ := ho
  exact ⟨e1, e2, e3, e4, e5, e6, e7, e8, hr.mpr hsum⟩

/-- Witness of C3: `$GPRMC,123519.00,A,4807.038,N,01131.000,E,022.4,084.4,230394,003.1,W*44`
and CR (the XOR of the payload is hexadecimal 44). -/
theorem rmc_field_extraction_witness :
    sentence (joinFields ([71, 80, 82, 77, 67] :: [49, 50, 51, 53, 49, 57, 46, 48, 48] ::
        (65 :: []) :: ([bytes "4807.038", bytes "N", bytes "01131.000", bytes "E",
          bytes "022.4", bytes "084.4"] ++ [50, 51, 48, 51, 57, 52] :: [bytes "003.1"]) ++
        [bytes "W"])) 52 52 13 =
      bytes "$GPRMC,123519.00,A,4807.038,N,01131.000,E,022.4,084.4,230394,003.1,W*44" ++ [13] ∧
    (run 0 (sentence (joinFields ([71, 80, 82, 77, 67] ::
        [49, 50, 51, 53, 49, 57, 46, 48, 48] :: (65 :: []) ::
        ([bytes "4807.038", bytes "N", bytes "01131.000", bytes "E", bytes "022.4",
          bytes "084.4"] ++ [50, 51, 48, 51, 57, 52] :: [bytes "003.1"]) ++
        [bytes "W"])) 52 52 13)).map (fun q => ([q.hour, q.minute, q.second, q.sub_sec,
          q.day, q.month, q.year, q.valid], q.time_message_ready)) =
      some ([12, 35, 19, 0, 23, 3, 94, 65], true) :=
  ⟨by decide, by
    obtain ⟨q, hq, e1, e2, e3, e4, e5, e6, e7, e8, e9⟩ := rmc_field_extraction 0 80
      49 50 51 53 49 57 48 48 65 []
      [bytes "4807.038", bytes "N", bytes "01131.000", bytes "E", bytes "022.4", bytes "084.4"]
      50 51 48 51 57 52 [bytes "003.1"] (bytes "W") 52 52 4 4 13
      (by decide) (by decide) (by decide) (by decide) (by decide) (by decide) (by decide)
      (by decide) (by decide) (by decide) (by decide) (by decide) (by decide) (by decide)
    rw [hq, Option.map_some', e1, e2, e3, e4, e5, e6, e7, e8, e9]
    rfl⟩

/-- C4 (GGA satellite extraction).  A freshly constructed parser fed a well-formed GGA
sentence (ID `G`, one of `A L N P`, `GGA`; tokens of at most 64 characters without `$`, `*`,
`,`; at most 256 comma-closed data fields, so that the 8-bit field index does not wrap) with
a correct checksum, whose field 6 is two decimal digits closed by a comma, ends with `nsat`
equal to their decimal value, `nsat_message_ready` true and `time_message_ready` false. -/
theorem gga_satellite_extraction (v x : Nat)
    (pre : List (List Nat)) (c0 c1 : Nat) (more : List (List Nat)) (last : List Nat)
    (h1 h2 a b T : Nat)
    (hx : TalkerOK x)
    (hpre : pre.length = 6) (hpreok : ∀ f ∈ pre, TokenOK f)
    (hc0 : IsDigit c0) (hc1 : IsDigit c1)
    (hmore : ∀ f ∈ more, TokenOK f) (hcount : 7 + more.length ≤ 256)
    (hl : TokenOK last)
    (ha : hexDigitValue h1 = some a) (hb : hexDigitValue h2 = some b)
    (hsum : 16 * a + b = nmeaChecksum (joinFields ([71, x, 71, 71, 65] ::
            (pre ++ [c0, c1] :: more) ++ [last])))
    (hT : Terminator T) :
    ∃ q, run v (sentence (joinFields ([71, x, 71, 71, 65] ::
            (pre ++ [c0, c1] :: more) ++ [last])) h1 h2 T) = some q ∧
      q.nsat = 10 * (c0 - 48) + (c1 - 48) ∧ q.nsat_message_ready = true ∧
      q.time_message_ready = false := by
  obtain ⟨p0, hc, hinv, _, _⟩ := construct_spec v
  obtain ⟨q, hq, ho, ht, hr⟩ := gga_sentence p0 hinv x pre c0 c1 more last h1 h2 a b T hx
    hpre hpreok hc0 hc1 hmore hcount hl ha hb hT
  refine ⟨q, (run_eq v p0 _ hc).trans hq, ?_, hr.mpr hsum, ht⟩
  simp only [outputs, Outputs.mk.injEq] at ho
  exact ho.2.2.2.2.2.2.2.2

/-- Witness of C4: `$GPGGA,123519,4807.038,N,01131.000,E,1,09,0.9,545.4,M,46.9,M,,*46` and CR
(the XOR of the payload is hexadecimal 46). -/
theorem gga_satellite_extraction_witness :
    sentence (joinFields ([71, 80, 71, 71, 65] ::
        ([bytes "123519", bytes "4807.038", bytes "N", bytes "01131.000", bytes "E",
          bytes "1"] ++ [48, 57] :: [bytes "0.9", bytes "545.4", bytes "M", bytes "46.9",
          bytes "M", []]) ++ [[]])) 52 54 13 =
      bytes "$GPGGA,123519,4807.038,N,01131.000,E,1,09,0.9,545.4,M,46.9,M,,*46" ++ [13] ∧
    (run 0 (sentence (joinFields ([71, 80, 71, 71, 65] ::
        ([bytes "123519", bytes "4807.038", bytes "N", bytes "01131.000", bytes "E",
          bytes "1"] ++ [48, 57] :: [bytes "0.9", bytes "545.4", bytes "M", bytes "46.9",
          bytes "M", []]) ++ [[]])) 52 54 13)).map
        (fun q => (q.nsat, q.nsat_message_ready, q.time_message_ready)) =
      some (9, true, false) :=
  ⟨by decide, by
    obtain ⟨q, hq, e1, e2, e3⟩ := gga_satellite_extraction 0 80
      [bytes "123519", bytes "4807.038", bytes "N", bytes "01131.000", bytes "E", bytes "1"]
      48 57 [bytes "0.9", bytes "545.4", bytes "M", bytes "46.9", bytes "M", []] []
      52 54 4 6 13
      (by decide) (by decide) (by decide) (by decide) (by decide) (by decide) (by decide)
      (by decide) (by decide) (by decide) (by decide) (by decide)
    rw [hq, Option.map_some', e1, e2, e3]⟩

/-- C5, refuted as stated: after `exampleRMC` (accepted: `time_message_ready` is true) the
outputs are 12:35:19.00, 23-03-94, `A`; after `staleRMC`, whose checksum digits `00` differ
from the XOR of its payload, the outputs are the ones of `staleRMC` (23:59:59.99, 31-12-99,
`V`), not the ones decoded from the first sentence. -/
theorem stale_on_failure_counterexample :
    (run 0 exampleRMC).map (fun q => (outputs q, q.time_message_ready)) =
      some ({ hour := 12, minute := 35, second := 19, sub_sec := 0, day := 23, month := 3,
              year := 94, valid := 65, nsat := 0 }, true) ∧
    nmeaChecksum
      (bytes "GPRMC,235959.99,V,4807.038,N,01131.000,E,022.4,084.4,311299,003.1,W") ≠ 0 ∧
    (run 0 (exampleRMC ++ staleRMC)).map (fun q => (outputs q, q.time_message_ready)) =
      some ({ hour := 23, minute := 59, second := 59, sub_sec := 99, day := 31, month := 12,
              year := 99, valid := 86, nsat := 0 }, false) := by
  decide

/-- C5, amended.  Whatever was fed before (in particular an accepted RMC sentence), after a
further well-formed RMC sentence with time `hhmmss.ss`, a status starting with a character
other than NUL and a date `ddmmyy` closed by a comma, whose checksum digits do not match
its payload, the RMC output fields are the values decoded from this second sentence, and
`time_message_ready` is false. -/
theorem stale_on_failure_amended (v : Nat) (s1 : List Nat) (q1 : GPSParser)
    (hs1 : run v s1 = some q1) (x : Nat)
    (c0 c1 c2 c3 c4 c5 c7 c8 st : Nat) (strest : List Nat) (mid : List (List Nat))
    (d0 d1 d2 d3 d4 d5 : Nat) (more : List (List Nat)) (last : List Nat)
    (h1 h2 a b T : Nat)
    (hx : TalkerOK x)
    (htime : ∀ c ∈ [c0, c1, c2, c3, c4, c5, c7, c8], IsDigit c)
    (hst : st ≠ 0) (hstok : TokenOK (st :: strest))
    (hmid : mid.length = 6) (hmidok : ∀ f ∈ mid, TokenOK f)
    (hdate : ∀ c ∈ [d0, d1, d2, d3, d4, d5], IsDigit c)
    (hmore : ∀ f ∈ more, TokenOK f) (hcount : 9 + more.length ≤ 256)
    (hl : TokenOK last)
    (ha : hexDigitValue h1 = some a) (hb : hexDigitValue h2 = some b)
    (hsum : 16 * a + b ≠ nmeaChecksum (joinFields ([71, x, 82, 77, 67] ::
            [c0, c1, c2, c3, c4, c5, 46, c7, c8] :: (st :: strest) ::
            (mid ++ [d0, d1, d2, d3, d4, d5] :: more) ++ [last])))
    (hT : Terminator T) :
    ∃ q, run v (s1 ++ sentence (joinFields ([71, x, 82, 77, 67] ::
            [c0, c1, c2, c3, c4, c5, 46, c7, c8] :: (st :: strest) ::
            (mid ++ [d0, d1, d2, d3, d4, d5] :: more) ++ [last])) h1 h2 T) = some q ∧
      q.hour = twoDigits c0 c1 ∧ q.minute = twoDigits c2 c3 ∧ q.second = twoDigits c4 c5 ∧
      q.sub_sec = twoDigits c7 c8 ∧
      q.day = twoDigits d0 d1 ∧ q.month = twoDigits d2 d3 ∧ q.year = twoDigits d4 d5 ∧
      q.valid = st ∧ q.time_message_ready = false := by
  have hinv : BufInv q1 := bufInv_of_reachable q1 ⟨v, s1, hs1⟩
  obtain ⟨q, hq, ho, _, hr⟩ := rmc_sentence q1 hinv x c0 c1 c2 c3 c4 c5 c7 c8 st strest mid
    d0 d1 d2 d3 d4 d5 more last h1 h2 a b T hx htime hst hstok hmid hmidok hdate hmore hcount
    hl ha hb hT
  refine ⟨q, (run_append v s1 _ q1 hs1).trans hq, ?_⟩
  simp only [outputs, Outputs.mk.injEq] at ho
  obtain ⟨e1, e2, e3, e4, e5, e6, e7, e8, _⟩ := ho
  refine ⟨e1, e2, e3, e4, e5, e6, e7, e8, ?_⟩
  cases hf : q.time_message_ready with
  | false => rfl
  | true => exact absurd (hr.mp hf) hsum

/-- Witness of the amended C5: `exampleRMC`, then
`$GPRMC,235959.99,V,4807.038,N,01131.000,E,022.4,084.4,311299,003.1,W*00` and CR. -/
theorem stale_on_failure_amended_witness :
    run 0 exampleRMC = some afterExampleRMC ∧
    (run 0 (exampleRMC ++ sentence (joinFields ([71, 80, 82, 77, 67] ::
        [50, 51, 53, 57, 53, 57, 46, 57, 57] :: (86 :: []) ::
        ([bytes "4807.038", bytes "N", bytes "01131.000", bytes "E", bytes "022.4",
          bytes "084.4"] ++ [51, 49, 49, 50, 57, 57] :: [bytes "003.1"]) ++
        [bytes "W"])) 48 48 13)).map (fun q => ([q.hour, q.minute, q.second, q.sub_sec,
          q.day, q.month, q.year, q.valid], q.time_message_ready)) =
      some ([23, 59, 59, 99, 31, 12, 99, 86], false) :=
  ⟨by decide, by
    obtain ⟨q, hq, e1, e2, e3, e4, e5, e6, e7, e8, e9⟩ := stale_on_failure_amended 0
      exampleRMC afterExampleRMC (by decide) 80
      50 51 53 57 53 57 57 57 86 []
      [bytes "4807.038", bytes "N", bytes "01131.000", bytes "E", bytes "022.4", bytes "084.4"]
      51 49 49 50 57 57 [bytes "003.1"] (bytes "W") 48 48 0 0 13
      (by decide) (by decide) (by decide) (by decide) (by decide) (by decide) (by decide)
      (by decide) (by decide) (by decide) (by decide) (by decide) (by decide) (by decide)
    rw [hq, Option.map_some', e1, e2, e3, e4, e5, e6, e7, e8, e9]
    rfl⟩

/-- C6, refuted as stated: after `exampleRMC` the hour is 12 (and the other outputs are
set); one further `$` leaves every output field except `valid` at 0. -/
theorem reset_keeps_outputs_counterexample :
    (run 0 exampleRMC).map outputs =
      some { hour := 12, minute := 35, second := 19, sub_sec := 0, day := 23, month := 3,
             year := 94, valid := 65, nsat := 0 } ∧
    (run 0 (exampleRMC ++ [36])).map outputs =
      some { hour := 0, minute := 0, second := 0, sub_sec := 0, day := 0, month := 0,
             year := 0, valid := 65, nsat := 0 } := by
  decide

/-- C6, amended.  In every reachable state the character `$` clears the in-progress parse
state (scratch buffer, running checksum, field index, sentence kind; the state becomes
`NMEA_ID`) and both ready flags, and it also sets hour, minute, second, sub_sec, day, month,
year and nsat to 0; of the output fields only `valid` keeps its value.  The received
checksum accumulator is left as it is. -/
theorem dollar_resets_outputs (p : GPSParser) (hr : Reachable p) :
    ∃ q, nmea_parse p 36 = some q ∧
      q.state = NMEA_ID ∧ q.id = NMEA_ID_OTHER ∧ q.checksum = 0 ∧ q.token_number = 0 ∧
      q.buf_pos = 0 ∧ q.buf = List.replicate 64 0 ∧
      q.time_message_ready = false ∧ q.nsat_message_ready = false ∧
      q.hour = 0 ∧ q.minute = 0 ∧ q.second = 0 ∧ q.sub_sec = 0 ∧
      q.day = 0 ∧ q.month = 0 ∧ q.year = 0 ∧ q.nsat = 0 ∧
      q.valid = p.valid ∧ q.r_checksum = p.r_checksum :=
  ⟨_, nmea_parse_dollar p (bufInv_of_reachable p hr), rfl, rfl, rfl, rfl, rfl, rfl, rfl, rfl,
    rfl, rfl, rfl, rfl, rfl, rfl, rfl, rfl, rfl, rfl⟩

/-- Witness of the amended C6: the `$` after `exampleRMC`. -/
theorem dollar_resets_outputs_witness :
    Reachable afterExampleRMC ∧
    (nmea_parse afterExampleRMC 36).map (fun q => (outputs q, q.state, q.time_message_ready)) =
      some ({ hour := 0, minute := 0, second := 0, sub_sec := 0, day := 0, month := 0,
              year := 0, valid := 65, nsat := 0 }, NMEA_ID, false) :=
  ⟨⟨0, exampleRMC, by decide⟩, by
    obtain ⟨q, hq, e1, e2, e3, e4, e5, e6, e7, e8, e9, e10, e11, e12, e13, e14, e15, e16,
      e17, e18⟩ := dollar_resets_outputs afterExampleRMC ⟨0, exampleRMC, by decide⟩
    rw [hq, Option.map_some']
    simp only [outputs, e1, e7, e9, e10, e11, e12, e13, e14, e15, e16, e17]
    rfl⟩

/-- C7, the code at a failing input: the sentence `$GPVTG,GPRMC,123519.00,A,*7B` has the ID
`GPVTG`, which is neither RMC nor GGA, and a matching checksum; yet its second token is
resolved as an RMC address, the two fields after it are decoded into hour, minute, second,
sub_sec and valid, and `time_message_ready` is true after the terminator. -/
theorem ignored_kind_decoded :
    idOf (pad (bytes "GPVTG")) = NMEA_ID_OTHER ∧
    nmeaChecksum (bytes "GPVTG,GPRMC,123519.00,A,") = 16 * 7 + 11 ∧
    (run 0 (bytes "$GPVTG,GPRMC,123519.00,A,*7B" ++ [13, 10])).map
        (fun q => (outputs q, q.time_message_ready)) =
      some ({ hour := 12, minute := 35, second := 19, sub_sec := 0, day := 0, month := 0,
              year := 0, valid := 65, nsat := 0 }, true) := by
  decide

/-- C8 (restart at `$`).  Let `pre` be any character sequence the parser consumed (ending
anywhere: in the ID, in a field, after some checksum digits).  For every sentence
`$` payload `*` h1 h2 T with tokens of at most 64 characters, two hex digits and a CR or LF
(of any kind, RMC and GGA included), the ready flags and hour, minute, second, sub_sec, day,
month, year, nsat after `pre` followed by the sentence equal their values after the sentence
alone on a freshly constructed parser. -/
theorem restart_at_dollar (v w : Nat) (pre : List Nat) (s1 : GPSParser)
    (hpre : run v pre = some s1)
    (toks : List (List Nat)) (last : List Nat) (h1 h2 a b T : Nat)
    (ht : ∀ t ∈ toks, TokenOK t) (hl : TokenOK last)
    (ha : hexDigitValue h1 = some a) (hb : hexDigitValue h2 = some b)
    (hT : Terminator T) :
    ∃ q q', run v (pre ++ sentence (joinFields (toks ++ [last])) h1 h2 T) = some q ∧
      run w (sentence (joinFields (toks ++ [last])) h1 h2 T) = some q' ∧
      q.time_message_ready = q'.time_message_ready ∧
      q.nsat_message_ready = q'.nsat_message_ready ∧
      q.hour = q'.hour ∧ q.minute = q'.minute ∧ q.second = q'.second ∧
      q.sub_sec = q'.sub_sec ∧ q.day = q'.day ∧ q.month = q'.month ∧ q.year = q'.year ∧
      q.nsat = q'.nsat := by
  have hinv : BufInv s1 := bufInv_of_reachable s1 ⟨v, pre, hpre⟩
  obtain ⟨p0, hc, hinv0, _, _⟩ := construct_spec w
  rw [joinFields_append_last]
  have f1 := feed_sentence s1 hinv toks last h1 h2 a b T ht hl ha hb hT
  have f2 := feed_sentence p0 hinv0 toks last h1 h2 a b T ht hl ha hb hT
  refine ⟨_, _, (run_append v pre _ s1 hpre).trans f1, (run_eq w p0 _ hc).trans f2, ?_⟩
  have hag := finish_agree _ _ (xorFrom 0 (closeAll toks ++ last)) a b
    (foldl_closeTok_agree toks _ _
      (agree_started s1.valid s1.r_checksum p0.valid p0.r_checksum))
  simp only [Agree, GPSParser.mk.injEq, and_true, true_and] at hag
  obtain ⟨_, _, _, _, _, _, e7, e8, e9, e10, e11, e12, e13, e14, e15, e16⟩ := hag
  exact ⟨e7, e15, e8, e9, e10, e11, e12, e13, e14, e16⟩

/-- Witness of C8: the sentence of the specification's example after the abandoned
`$GPGGA,12*4`, against the same sentence on a fresh parser. -/
theorem restart_at_dollar_witness :
    run 7 (bytes "$GPGGA,12*4") = some abandoned ∧
    (run 7 (bytes "$GPGGA,12*4" ++ sentence (joinFields ([bytes "GPRMC", bytes "123519.00",
        bytes "A", bytes "4807.038", bytes "N", bytes "01131.000", bytes "E", bytes "022.4",
        bytes "084.4", bytes "230394", bytes "003.1"] ++ [bytes "W"])) 52 52 13)).map
        (fun q => (q.time_message_ready, q.nsat_message_ready,
          [q.hour, q.minute, q.second, q.sub_sec, q.day, q.month, q.year, q.nsat])) =
    (run 0 (sentence (joinFields ([bytes "GPRMC", bytes "123519.00",
        bytes "A", bytes "4807.038", bytes "N", bytes "01131.000", bytes "E", bytes "022.4",
        bytes "084.4", bytes "230394", bytes "003.1"] ++ [bytes "W"])) 52 52 13)).map
        (fun q => (q.time_message_ready, q.nsat_message_ready,
          [q.hour, q.minute, q.second, q.sub_sec, q.day, q.month, q.year, q.nsat])) :=
  ⟨by decide, by
    obtain ⟨q, q', hq, hq', e1, e2, e3, e4, e5, e6, e7, e8, e9, e10⟩ :=
      restart_at_dollar 7 0 (bytes "$GPGGA,12*4") abandoned (by decide)
        [bytes "GPRMC", bytes "123519.00", bytes "A", bytes "4807.038", bytes "N",
         bytes "01131.000", bytes "E", bytes "022.4", bytes "084.4", bytes "230394",
         bytes "003.1"]
        (bytes "W") 52 52 4 4 13 (by decide) (by decide) (by decide) (by decide) (by decide)
    rw [hq, hq', Option.map_some', Option.map_some', e1, e2, e3, e4, e5, e6, e7, e8, e9, e10]⟩

/-- C9 (empty field skip).  In every reachable state with `state = NMEA_DATA` and an empty
scratch buffer (`buf_pos = 0`), a comma decodes nothing: every output field, both flags, the
kind, the state and the buffer stay as they are; the field index advances (modulo 256) and,
as for every payload character, the comma is folded into the running checksum.  This holds
at every field index, the date field of an RMC sentence included, and whatever was buffered
in earlier fields. -/
theorem empty_field_skip (p : GPSParser) (hr : Reachable p) (hs : p.state = NMEA_DATA)
    (hb : p.buf_pos = 0) :
    nmea_parse p 44 =
        some { p with checksum := p.checksum ^^^ 44,
                      token_number := (p.token_number + 1) % 256 } ∧
      outputs { p with checksum := p.checksum ^^^ 44,
                       token_number := (p.token_number + 1) % 256 } = outputs p := by
  have hinv := bufInv_of_reachable p hr
  have hbuf := buf_of_empty p hinv hb
  have h0 : p.buf.getD 0 0 = 0 := hinv.tail 0 (by omega)
  refine ⟨?_, rfl⟩
  rw [nmea_parse_comma_data p hs hinv, dispatch_empty p h0]
  simp only [Option.some.injEq]
  ext <;> simp [hbuf, hb]

/-- Witness of C9: the empty date field of
`$GPRMC,123519.00,A,4807.038,N,01131.000,E,022.4,084.4,,`. -/
theorem empty_field_skip_witness :
    Reachable beforeDate ∧
    nmea_parse beforeDate 44 = some { beforeDate with checksum := 28, token_number := 9 } ∧
    outputs { beforeDate with checksum := 28, token_number := 9 } = outputs beforeDate :=
  ⟨⟨0, bytes "$GPRMC,123519.00,A,4807.038,N,01131.000,E,022.4,084.4,", by decide⟩,
    empty_field_skip beforeDate
      ⟨0, bytes "$GPRMC,123519.00,A,4807.038,N,01131.000,E,022.4,084.4,", by decide⟩
      (by decide) (by decide)⟩

/-- C10, refuted as stated: the ID token `GPRMCX` is none of `GARMC`, `GLRMC`, `GNRMC`,
`GPRMC`, and it resolves to RMC (the parser moves on to `NMEA_DATA`). -/
theorem address_resolution_counterexample :
    bytes "GPRMCX" ∉ [bytes "GARMC", bytes "GLRMC", bytes "GNRMC", bytes "GPRMC"] ∧
    (run 0 (bytes "$GPRMCX,")).map (fun q => (q.id, q.state)) =
      some (NMEA_ID_RMC, NMEA_DATA) := by
  decide

/-- C10, amended.  For every ID token `t` (at most 64 characters, without `$`, `*`, `,`) fed
after `$` in a reachable state and closed by `,`, the resolved kind is RMC if and only if `t`
begins with `G`, one of `A L N P`, `RMC`; it is GGA if and only if `t` begins with `G`, one
of `A L N P`, `GGA`; and it is OTHER for every other token, in particular for every token
shorter than five characters.  Characters after the fifth are not looked at. -/
theorem address_resolution (p : GPSParser) (hr : Reachable p) (t : List Nat)
    (ht : TokenOK t) :
    ∃ q, feed p (36 :: t ++ [44]) = some q ∧
      (q.id = NMEA_ID_RMC ↔ ∃ x rest, TalkerOK x ∧ t = 71 :: x :: 82 :: 77 :: 67 :: rest) ∧
      (q.id = NMEA_ID_GGA ↔ ∃ x rest, TalkerOK x ∧ t = 71 :: x :: 71 :: 71 :: 65 :: rest) ∧
      (q.id = NMEA_ID_OTHER ↔
        ¬ ∃ x rest, TalkerOK x ∧
          (t = 71 :: x :: 82 :: 77 :: 67 :: rest ∨ t = 71 :: x :: 71 :: 71 :: 65 :: rest)) ∧
      (t.length < 5 → q.id = NMEA_ID_OTHER) := by
  have hinv := bufInv_of_reachable p hr
  have hfeed : feed p (36 :: t ++ [44]) = some (closeTok (started p.valid p.r_checksum) t) := by
    rw [List.cons_append, feed, nmea_parse_dollar p hinv, Option.some_bind]
    exact feed_closeTok _ t ⟨rfl, rfl⟩ (Or.inl rfl) ht
  have hid : (closeTok (started p.valid p.r_checksum) t).id = idOf (pad t) := by
    simp [closeTok, started]
  have hR := idOf_pad_iff t NMEA_ID_RMC (by decide)
  have hG := idOf_pad_iff t NMEA_ID_GGA (by decide)
  simp only [kindChars, List.cons_append, List.nil_append] at hR hG
  refine ⟨_, hfeed, ?_, ?_, ?_, ?_⟩
  · rw [hid]; exact hR
  · rw [hid]; exact hG
  · rw [hid]
    constructor
    · rintro h ⟨x, rest, hx, e | e⟩
      · have := hR.mpr ⟨x, rest, hx, e⟩
        rw [h] at this
        exact absurd this (by decide)
      · have := hG.mpr ⟨x, rest, hx, e⟩
        rw [h] at this
        exact absurd this (by decide)
    · intro h
      cases hk : idOf (pad t) with
      | NMEA_ID_OTHER => rfl
      | NMEA_ID_RMC =>
        obtain ⟨x, rest, hx, e⟩ := hR.mp hk
        exact absurd ⟨x, rest, hx, Or.inl e⟩ h
      | NMEA_ID_GGA =>
        obtain ⟨x, rest, hx, e⟩ := hG.mp hk
        exact absurd ⟨x, rest, hx, Or.inr e⟩ h
  · intro hlen
    rw [hid]
    cases hk : idOf (pad t) with
    | NMEA_ID_OTHER => rfl
    | NMEA_ID_RMC =>
      obtain ⟨x, rest, _, e⟩ := hR.mp hk
      rw [e] at hlen
      simp only [List.length_cons] at hlen
      omega
    | NMEA_ID_GGA =>
      obtain ⟨x, rest, _, e⟩ := hG.mp hk
      rw [e] at hlen
      simp only [List.length_cons] at hlen
      omega

/-- Witness of the amended C10: the token `GPRMCX` after the abandoned `$GPGGA,12*4`. -/
theorem address_resolution_witness :
    Reachable abandoned ∧
    (feed abandoned (36 :: bytes "GPRMCX" ++ [44])).map (fun q => q.id) = some NMEA_ID_RMC :=
  ⟨⟨7, bytes "$GPGGA,12*4", by decide⟩, by
    obtain ⟨q, hq, h1, _⟩ := address_resolution abandoned ⟨7, bytes "$GPGGA,12*4", by decide⟩
      (bytes "GPRMCX") (by decide)
    rw [hq, Option.map_some', h1.mpr ⟨80, [88], by decide, by decide⟩]⟩

/-- C11 (ready until next start).  In a reachable state with `state = NMEA_WAIT`, any run of
characters other than `$` leaves the whole parser state as it is (flags and output fields
included); and in every reachable state a `$` is consumed and leaves both
`time_message_ready` and `nsat_message_ready` false. -/
theorem ready_until_next_start (p : GPSParser) (hr : Reachable p) (cs : List Nat)
    (hcs : ∀ c ∈ cs, c ≠ 36) :
    (p.state = NMEA_WAIT → feed p cs = some p) ∧
    ∃ q, nmea_parse p 36 = some q ∧
      q.time_message_ready = false ∧ q.nsat_message_ready = false := by
  constructor
  · intro hs
    induction cs with
    | nil => rfl
    | cons c cs ih =>
      rw [feed, nmea_parse_wait p c hs (hcs c (List.mem_cons_self c cs)), Option.some_bind]
      exact ih (fun d hd => hcs d (List.mem_cons_of_mem c hd))
  · exact ⟨_, nmea_parse_dollar p (bufInv_of_reachable p hr), rfl, rfl⟩

/-- Witness of C11: after `exampleRMC` the flag stays through `noise,*7F` CR LF, and the next
`$` clears it. -/
theorem ready_until_next_start_witness :
    Reachable afterExampleRMC ∧ afterExampleRMC.time_message_ready = true ∧
    feed afterExampleRMC (bytes "noise,*7F" ++ [13, 10]) = some afterExampleRMC ∧
    (nmea_parse afterExampleRMC 36).map
      (fun q => (q.time_message_ready, q.nsat_message_ready)) = some (false, false) :=
  ⟨⟨0, exampleRMC, by decide⟩, rfl,
    (ready_until_next_start afterExampleRMC ⟨0, exampleRMC, by decide⟩
      (bytes "noise,*7F" ++ [13, 10]) (by decide)).1 rfl,
    by
      obtain ⟨q, hq, h1, h2⟩ := (ready_until_next_start afterExampleRMC
        ⟨0, exampleRMC, by decide⟩ (bytes "noise,*7F" ++ [13, 10]) (by decide)).2
      rw [hq, Option.map_some', h1, h2]⟩

/-- C16 (two-digit decimal decode).  When the two characters at `&buf[off]` are ASCII digits,
`str2decimal` returns `10 * (d0 - '0') + (d1 - '0')`; that value is at most 99 and is the
`int` value itself, so the conversion to `uint8_t` does not wrap.  Consequently the
satellite count, the four time outputs and the three date outputs which the readers decode
from digit pairs are at most 99. -/
theorem two_digit_decode (buf : List Nat) (off : Nat)
    (h0 : IsDigit (buf.getD off 0)) (h1 : IsDigit (buf.getD (off + 1) 0)) :
    str2decimal buf off = 10 * (buf.getD off 0 - 48) + (buf.getD (off + 1) 0 - 48) ∧
    str2decimal buf off ≤ 99 ∧
    10 * ((buf.getD off 0 : Int) - 48) + ((buf.getD (off + 1) 0 : Int) - 48) =
      ((str2decimal buf off : Nat) : Int) ∧
    (∀ p : GPSParser, p.buf = buf → off = 0 → p.token_number = 6 →
      (data_gga_reader p).nsat ≤ 99) ∧
    (∀ p : GPSParser, p.token_number = 0 →
      (∀ i ∈ [0, 1, 2, 3, 4, 5, 7, 8], IsDigit (p.buf.getD i 0)) →
      (data_rmc_reader p).hour ≤ 99 ∧ (data_rmc_reader p).minute ≤ 99 ∧
      (data_rmc_reader p).second ≤ 99 ∧ (data_rmc_reader p).sub_sec ≤ 99) ∧
    (∀ p : GPSParser, p.token_number = 8 →
      (∀ i ∈ [0, 1, 2, 3, 4, 5], IsDigit (p.buf.getD i 0)) →
      (data_rmc_reader p).day ≤ 99 ∧ (data_rmc_reader p).month ≤ 99 ∧
      (data_rmc_reader p).year ≤ 99) := by
  have e := str2decimal_eq buf off _ _ rfl rfl h0 h1
  refine ⟨e, str2decimal_le buf off h0 h1, ?_, ?_, ?_, ?_⟩
  · rw [e]
    unfold twoDigits
    unfold IsDigit at h0 h1
    omega
  · intro p hb ho hn
    subst hb ho
    have hne : p.buf.getD 0 0 ≠ 0 := by unfold IsDigit at h0; omega
    simp only [data_gga_reader, hn, if_neg hne]
    exact str2decimal_le p.buf 0 h0 h1
  · intro p hn hd
    simp only [List.mem_cons, List.mem_singleton, List.not_mem_nil, or_false,
      forall_eq_or_imp, forall_eq] at hd
    obtain ⟨d0, d1, d2, d3, d4, d5, d7, d8⟩ := hd
    have hne : p.buf.getD 0 0 ≠ 0 := by unfold IsDigit at d0; omega
    simp only [data_rmc_reader, hn, if_neg hne]
    exact ⟨str2decimal_le p.buf 0 d0 d1, str2decimal_le p.buf 2 d2 d3,
      str2decimal_le p.buf 4 d4 d5, str2decimal_le p.buf 7 d7 d8⟩
  · intro p hn hd
    simp only [List.mem_cons, List.mem_singleton, List.not_mem_nil, or_false,
      forall_eq_or_imp, forall_eq] at hd
    obtain ⟨d0, d1, d2, d3, d4, d5⟩ := hd
    have hne : p.buf.getD 0 0 ≠ 0 := by unfold IsDigit at d0; omega
    simp only [data_rmc_reader, hn, if_neg hne]
    exact ⟨str2decimal_le p.buf 0 d0 d1, str2decimal_le p.buf 2 d2 d3,
      str2decimal_le p.buf 4 d4 d5⟩

/-- Witness of C16: the field `09`. -/
theorem two_digit_decode_witness :
    IsDigit ((bytes "09").getD 0 0) ∧ IsDigit ((bytes "09").getD (0 + 1) 0) ∧
    str2decimal (bytes "09") 0 = 9 :=
  ⟨by decide, by decide,
    (two_digit_decode (bytes "09") 0 (by decide) (by decide)).1.trans (by decide)⟩

/-- C19 (time field without a fraction).  From every reachable state, `$`, an RMC address
(`G`, one of `A L N P`, `RMC`), a comma, six digits `hhmmss` and the comma closing them leave
hour, minute and second at the values of the digit pairs and `sub_sec` at 240: offsets 7
and 8 of the scratch buffer hold NUL, whatever was buffered before. -/
theorem time_without_fraction (p : GPSParser) (hr : Reachable p) (x : Nat)
    (c0 c1 c2 c3 c4 c5 : Nat) (hx : TalkerOK x)
    (hd : ∀ c ∈ [c0, c1, c2, c3, c4, c5], IsDigit c) :
    ∃ q, feed p (36 :: [71, x, 82, 77, 67] ++ 44 :: [c0, c1, c2, c3, c4, c5] ++ [44])
          = some q ∧
      q.hour = twoDigits c0 c1 ∧ q.minute = twoDigits c2 c3 ∧ q.second = twoDigits c4 c5 ∧
      q.sub_sec = 240 := by
  have hinv := bufInv_of_reachable p hr
  have hdig : ∀ c, IsDigit c → c ≠ 36 ∧ c ≠ 42 ∧ c ≠ 44 := by
    intro c hc; unfold IsDigit at hc; omega
  have hid : TokenOK [71, x, 82, 77, 67] := by
    refine ⟨by simp, ?_⟩
    rcases hx with rfl | rfl | rfl | rfl <;> simp
  have htm : TokenOK [c0, c1, c2, c3, c4, c5] :=
    ⟨by simp, fun c hc => hdig c (hd c hc)⟩
  obtain ⟨a1, _⟩ := closeTok_started p.valid p.r_checksum x NMEA_ID_RMC [] (by decide) hx
  simp only [kindChars, List.append_nil, List.cons_append, List.nil_append] at a1
  have e : (36 :: [71, x, 82, 77, 67] ++ 44 :: [c0, c1, c2, c3, c4, c5] ++ [44]) =
      36 :: (([71, x, 82, 77, 67] ++ [44]) ++ ([c0, c1, c2, c3, c4, c5] ++ [44])) := by
    simp
  have hfeed : feed p (36 :: [71, x, 82, 77, 67] ++ 44 :: [c0, c1, c2, c3, c4, c5] ++ [44]) =
      some (closeTok (closeTok (started p.valid p.r_checksum) [71, x, 82, 77, 67])
        [c0, c1, c2, c3, c4, c5]) := by
    rw [e, feed, nmea_parse_dollar p hinv, Option.some_bind, feed_append,
      feed_closeTok _ _ ⟨rfl, rfl⟩ (Or.inl rfl) hid, Option.some_bind]
    exact feed_closeTok _ _ (closeTok_clean _ _ (Or.inl rfl)) (Or.inr a1.1) htm
  have ho := closeTok_rmc_time6 _ c0 c1 c2 c3 c4 c5 a1 hd
  simp only [outputs, Outputs.mk.injEq] at ho
  exact ⟨_, hfeed, ho.1, ho.2.1, ho.2.2.1, ho.2.2.2.1⟩

/-- Witness of C19: `$GPRMC,123519,` after `exampleRMC`, whose field 0 was `123519.00`. -/
theorem time_without_fraction_witness :
    Reachable afterExampleRMC ∧
    (feed afterExampleRMC (36 :: [71, 80, 82, 77, 67] ++ 44 :: [49, 50, 51, 53, 49, 57] ++
      [44])).map (fun q => [q.hour, q.minute, q.second, q.sub_sec]) =
      some [12, 35, 19, 240] :=
  ⟨⟨0, exampleRMC, by decide⟩, by
    obtain ⟨q, hq, e1, e2, e3, e4⟩ := time_without_fraction afterExampleRMC
      ⟨0, exampleRMC, by decide⟩ 80 49 50 51 53 49 57 (by decide) (by decide)
    rw [hq, Option.map_some', e1, e2, e3, e4]
    rfl⟩

/-- C20 (two hex digits flush the received checksum).  In state `NMEA_CHECKSUM`, whatever
`r_checksum` holds, feeding two hexadecimal digit characters (either case) of values `a` and
`b` changes nothing but `r_checksum`, which becomes `16 * a + b`. -/
theorem two_hex_digits_flush (p : GPSParser) (h1 h2 a b : Nat)
    (hs : p.state = NMEA_CHECKSUM)
    (ha : hexDigitValue h1 = some a) (hb : hexDigitValue h2 = some b) :
    feed p [h1, h2] = some { p with r_checksum := 16 * a + b } := by
  obtain ⟨e1, l1, n1⟩ := hexchar_of_digit h1 a ha
  obtain ⟨e2, l2, n2⟩ := hexchar_of_digit h2 b hb
  have s1 := nmea_parse_digit p h1 hs n1
  have s2 := nmea_parse_digit
    { p with r_checksum := ((p.r_checksum <<< 4) % 256) ||| hexchar h1 } h2 hs n2
  simp only [feed]
  rw [s1]
  simp only [Option.some_bind]
  rw [s2]
  simp only [Option.some_bind, e1, e2, flush_two_digits p.r_checksum a b l1 l2]

/-- Witness of C20: the digits `c` and `5` in the state `abandoned`, whose accumulator
holds 4. -/
theorem two_hex_digits_flush_witness :
    abandoned.state = NMEA_CHECKSUM ∧ abandoned.r_checksum = 4 ∧
    hexDigitValue 99 = some 12 ∧ hexDigitValue 53 = some 5 ∧
    feed abandoned [99, 53] = some { abandoned with r_checksum := 197 } :=
  ⟨rfl, rfl, by decide, by decide,
    two_hex_digits_flush abandoned 99 53 12 5 rfl (by decide) (by decide)⟩

/-- C12, refuted as stated: after `$` and 64 letters `A` the parser is in `NMEA_ID` with
`buf_pos = 64`; nothing in `nmea_parse` looks at the fill, so a 65th letter runs
`buf[buf_pos++] = c` with `buf_pos = 64`, a write to `buf[64]` (no result in the
embedding). -/
theorem bounded_token_buffer_counterexample :
    (run 0 (36 :: List.replicate 64 65)).map (fun p => (p.state, p.buf_pos)) =
      some (NMEA_ID, 64) ∧
    (run 0 (36 :: List.replicate 64 65)).bind (fun p => append p 65) = none ∧
    run 0 (36 :: List.replicate 65 65) = none := by
  decide

/-- C12, amended.  For every input in which every run of characters between two delimiters
(`$`, `*`, `,`) has at most 64 characters, every prefix of the input is consumed without a
write outside the scratch buffer, and `buf_pos ≤ 64` holds after each of them. -/
theorem bounded_token_buffer_amended (v : Nat) (cs : List Nat)
    (hf : tokensFit 0 cs = true) (k : Nat) :
    ∃ p, run v (cs.take k) = some p ∧ p.buf_pos ≤ 64 := by
  obtain ⟨p0, hc, _, _, _⟩ := construct_spec v
  obtain ⟨q, m, hq, hfit⟩ := fits_feed (cs.take k) p0 0 (fits_construct v p0 hc)
    (tokensFit_take cs 0 k hf)
  exact ⟨q, (run_eq v p0 _ hc).trans hq, hfit.inv.pos⟩

/-- Witness of the amended C12: the first 40 characters of `exampleRMC`. -/
theorem bounded_token_buffer_amended_witness :
    tokensFit 0 exampleRMC = true ∧
    (run 0 (exampleRMC.take 40)).map (fun p => decide (p.buf_pos ≤ 64)) = some true :=
  ⟨by decide, by
    obtain ⟨p, hp, hle⟩ := bounded_token_buffer_amended 0 exampleRMC (by decide) 40
    rw [hp, Option.map_some']
    simp [hle]⟩

/-- C13 (running checksum definition).  From every reachable state, `$`, a character
sequence `w` without `$` and `*` whose comma-separated tokens have at most 64 characters, and
`*` leave the parser in `NMEA_CHECKSUM` with the running checksum equal to the XOR of the
low eight bits of every character of `w`; whatever is fed afterwards, short of a `$`
(checksum digits, the terminator), does not change it. -/
theorem running_checksum (p : GPSParser) (hr : Reachable p) (w : List Nat)
    (hw : ∀ c ∈ w, c ≠ 36 ∧ c ≠ 42) (hf : tokensFit 0 w = true) :
    ∃ q, feed p (36 :: w ++ [42]) = some q ∧ q.state = NMEA_CHECKSUM ∧
      q.checksum = nmeaChecksum w ∧
      ∀ ds, (∀ c ∈ ds, c ≠ 36) → ∃ r, feed q ds = some r ∧ r.checksum = nmeaChecksum w := by
  have hinv := bufInv_of_reachable p hr
  obtain ⟨q, hq, hs, hqinv, hck⟩ := feed_payload w (started p.valid p.r_checksum) 0
    (Or.inl rfl) (bufInv_clean _ rfl rfl) (Nat.le_refl 0) hf hw
  have hwait : q.state ≠ NMEA_WAIT := by
    rcases hs with hs | hs <;> simp [hs]
  refine ⟨{ q with state := NMEA_CHECKSUM, buf := pad [], buf_pos := 0 }, ?_, rfl, hck, ?_⟩
  · rw [List.cons_append, feed, nmea_parse_dollar p hinv, Option.some_bind, feed_append, hq,
      Option.some_bind, feed, nmea_parse_star q hwait hqinv, Option.some_bind]
    rfl
  · intro ds hds
    obtain ⟨r, hr, g⟩ := feed_idle ds
      { q with state := NMEA_CHECKSUM, buf := pad [], buf_pos := 0 } (Or.inl rfl)
      (bufInv_clean _ rfl rfl) hds
    exact ⟨r, hr, g.trans hck⟩

/-- Witness of C13: the payload of the specification's example after the abandoned
`$GPGGA,12*4`; its XOR is hexadecimal 44. -/
theorem running_checksum_witness :
    Reachable abandoned ∧
    (feed abandoned (36 ::
      bytes "GPRMC,123519.00,A,4807.038,N,01131.000,E,022.4,084.4,230394,003.1,W" ++
      [42])).map (fun q => (q.state, q.checksum)) = some (NMEA_CHECKSUM, 68) :=
  ⟨⟨7, bytes "$GPGGA,12*4", by decide⟩, by
    obtain ⟨q, hq, h1, h2, _⟩ := running_checksum abandoned
      ⟨7, bytes "$GPGGA,12*4", by decide⟩
      (bytes "GPRMC,123519.00,A,4807.038,N,01131.000,E,022.4,084.4,230394,003.1,W")
      (by decide) (by decide)
    rw [hq, Option.map_some', h1, h2]
    decide⟩

/-- C14, the code at two failing inputs.  The RMC sentence whose date field `230394` at
index 8 is closed by `*` is accepted (`time_message_ready` is true) with day, month and
year left at 0, whereas the same sentence with the date closed by `,` gives 23, 3, 94; and
the GGA sentence whose field 6 `09` is closed by `*` is accepted with `nsat` left at 0. -/
theorem field_closed_by_star_not_decoded :
    (run 0 (bytes "$GPRMC,123519.00,A,4807.038,N,01131.000,E,022.4,084.4,230394*3F" ++
      [13, 10])).map (fun q => (outputs q, q.time_message_ready)) =
      some ({ hour := 12, minute := 35, second := 19, sub_sec := 0, day := 0, month := 0,
              year := 0, valid := 65, nsat := 0 }, true) ∧
    (run 0 (bytes "$GPRMC,123519.00,A,4807.038,N,01131.000,E,022.4,084.4,230394,*13" ++
      [13, 10])).map (fun q => (outputs q, q.time_message_ready)) =
      some ({ hour := 12, minute := 35, second := 19, sub_sec := 0, day := 23, month := 3,
              year := 94, valid := 65, nsat := 0 }, true) ∧
    (run 0 (bytes "$GPGGA,123519,4807.038,N,01131.000,E,1,09*76" ++
      [13, 10])).map (fun q => (q.nsat, q.nsat_message_ready)) = some (0, true) ∧
    (run 0 (bytes "$GPGGA,123519,4807.038,N,01131.000,E,1,09,*5A" ++
      [13, 10])).map (fun q => (q.nsat, q.nsat_message_ready)) = some (9, true) := by
  decide

/-- C15, the code at a failing input.  After `$GPGGA,12*4$` the parser is in `NMEA_ID`, not
in `NMEA_CHECKSUM`, and the received-checksum accumulator still holds 4: the `$` did not
reset it.  The stale digit then completes the one-digit checksum of the next sentence:
`...,W*4` and CR is accepted after the abandoned sentence, and rejected on a fresh parser. -/
theorem received_checksum_survives_dollar :
    (run 7 (bytes "$GPGGA,12*4$")).map (fun q => (q.state, q.r_checksum)) =
      some (NMEA_ID, 4) ∧
    (run 7 (bytes "$GPGGA,12*4" ++
      bytes "$GPRMC,123519.00,A,4807.038,N,01131.000,E,022.4,084.4,230394,003.1,W*4" ++
      [13])).map (fun q => q.time_message_ready) = some true ∧
    (run 7 (bytes "$GPRMC,123519.00,A,4807.038,N,01131.000,E,022.4,084.4,230394,003.1,W*4" ++
      [13])).map (fun q => q.time_message_ready) = some false := by
  decide

/-- C17 (scratch-buffer tail is zero).  In every reachable state `buf_pos ≤ 64` and every
cell of `buf` from `buf_pos` up to 63 holds NUL.  The constructor establishes the property,
every step of `nmea_parse` that has a result preserves it, and an input whose tokens have at
most 64 characters is consumed to the end in a state that has it. -/
theorem scratch_tail_zero (p : GPSParser) (hr : Reachable p) :
    TailZero p ∧
    (∀ v, ∃ p0, construct v = some p0 ∧ TailZero p0) ∧
    (∀ q c r, TailZero q → nmea_parse q c = some r → TailZero r) ∧
    (∀ v cs, tokensFit 0 cs = true → ∃ q, run v cs = some q ∧ TailZero q) := by
  refine ⟨(tailZero_iff p).mpr (bufInv_of_reachable p hr), ?_, ?_, ?_⟩
  · intro v
    obtain ⟨p0, hc, hinv, _, _⟩ := construct_spec v
    exact ⟨p0, hc, (tailZero_iff p0).mpr hinv⟩
  · intro q c r hq hstep
    exact (tailZero_iff r).mpr (bufInv_step q r c ((tailZero_iff q).mp hq) hstep)
  · intro v cs hf
    obtain ⟨p0, hc, _, _, _⟩ := construct_spec v
    obtain ⟨q, m, hq, hfit⟩ := fits_feed cs p0 0 (fits_construct v p0 hc) hf
    exact ⟨q, (run_eq v p0 _ hc).trans hq, (tailZero_iff q).mpr hfit.inv⟩

/-- Witness of C17: the state after `$GPRMC,1235`, with four characters buffered. -/
theorem scratch_tail_zero_witness :
    Reachable midField ∧ midField.buf_pos = 4 ∧ TailZero midField :=
  ⟨⟨0, bytes "$GPRMC,1235", by decide⟩, rfl,
    (scratch_tail_zero midField ⟨0, bytes "$GPRMC,1235", by decide⟩).1⟩

/-- C18 (ready flags imply a completed sentence).  In every reachable state,
`time_message_ready` true implies `state = NMEA_WAIT` and kind RMC, and
`nsat_message_ready` true implies `state = NMEA_WAIT` and kind GGA; so the two flags are
never both true, and both are false while a sentence is in progress. -/
theorem ready_flags_completed (p : GPSParser) (hr : Reachable p) :
    (p.time_message_ready = true → p.state = NMEA_WAIT ∧ p.id = NMEA_ID_RMC) ∧
    (p.nsat_message_ready = true → p.state = NMEA_WAIT ∧ p.id = NMEA_ID_GGA) ∧
    ¬ (p.time_message_ready = true ∧ p.nsat_message_ready = true) ∧
    (p.state ≠ NMEA_WAIT →
      p.time_message_ready = false ∧ p.nsat_message_ready = false) := by
  have hflags : FlagsInv p := by
    obtain ⟨v, cs, hrun⟩ := hr
    obtain ⟨p0, hc, hinv, _, _⟩ := construct_spec v
    have h0 : FlagsInv p0 := by
      simp only [construct, clear_buf, NMEA_BUFF_SIZE, le_refl, if_true,
        Option.some.injEq] at hc
      subst hc
      exact flagsInv_of_false _ rfl rfl
    exact flagsInv_feed cs p0 p hinv h0 ((run_eq v p0 cs hc).symm.trans hrun)
  refine ⟨hflags.1, hflags.2, ?_, flags_false_of_busy p hflags⟩
  rintro ⟨h1, h2⟩
  have e1 := (hflags.1 h1).2
  have e2 := (hflags.2 h2).2
  rw [e1] at e2
  exact absurd e2 (by decide)

/-- Witness of C18: the state after `exampleRMC`, where `time_message_ready` is true. -/
theorem ready_flags_completed_witness :
    Reachable afterExampleRMC ∧ afterExampleRMC.time_message_ready = true ∧
    afterExampleRMC.state = NMEA_WAIT ∧ afterExampleRMC.id = NMEA_ID_RMC :=
  ⟨⟨0, exampleRMC, by decide⟩, rfl,
    (ready_flags_completed afterExampleRMC ⟨0, exampleRMC, by decide⟩).1 rfl⟩

end GPSClock
